import Mathlib

/-!
# Verification of the shape-network/mcp-server tool handlers

Shallow embedding of the MCP tool handlers of the repository
(`src/tools/get-top-shape-creators.ts`, `src/tools/gasback/get-shape-creator-analytics.ts`,
`src/tools/gasback/simulate-gasback-rewards.ts` (its `getTopShapeCreators` multicall variant),
the cached `getCollectionAnalytics`, `getChainStatus`, `getStackAchievements` and
`getShapeNft`), together with proofs about the properties the specification claims.

Modelling conventions:
* `bigint` contract reads are natural numbers; JavaScript `number` arithmetic is modelled
  in exact rational arithmetic (`ℚ`), with `toFixed`/`parseFloat` rounding modelled exactly.
* Upstream RPC/HTTP calls are fields of an environment record; a call that may reject is
  an `Except String` value carrying the error message (`error.message` in the source).
* `JSON.stringify(x, null, 2)` is modelled by a canonical compact serialization
  (indentation whitespace is abstracted away, consistently for all handlers).
* The current time (`new Date().toISOString()`) and the epoch-to-ISO rendering are
  injected as environment data, since they are ambient inputs of every handler.
-/

set_option linter.unusedVariables false

namespace Mcp

/-! ## Decimal rendering primitives -/

/-- The character of a decimal digit (used with `n ≤ 9`). -/
def digitChar (n : Nat) : Char := Char.ofNat (48 + n)

/-- Decimal digits of a natural number, most significant digit first.
This is the standard base-10 rendering used by JavaScript string interpolation
of integers. -/
def natChars (n : Nat) : List Char :=
  if h : n < 10 then [digitChar n]
  else natChars (n / 10) ++ [digitChar (n % 10)]
termination_by n
decreasing_by exact Nat.div_lt_self (by omega) (by omega)

/-- Base-10 rendering of a natural number as a string. -/
def natStr (n : Nat) : String := ⟨natChars n⟩

/-- Base-10 rendering of an integer, with a leading minus sign when negative. -/
def intChars (m : Int) : List Char :=
  if m < 0 then '-' :: natChars m.natAbs else natChars m.natAbs

/-- Exactly `d` low-order decimal digits of `n`, zero-padded on the left. -/
def padDigits (n : Nat) : Nat → List Char
  | 0 => []
  | d + 1 => padDigits (n / 10) d ++ [digitChar (n % 10)]

/-- The integer `u` for which `u / 10^d` is as close as possible to `q`, ties
rounded away from zero.  This is the rounding performed by ECMAScript
`Number.prototype.toFixed(d)` (which takes the absolute value, rounds ties to
the larger candidate, and re-attaches the sign); the source computes with IEEE
doubles, which we model in exact rational arithmetic. -/
def fixedUnits (d : Nat) (q : ℚ) : ℤ :=
  if q < 0 then -Int.floor ((-q) * 10 ^ d + 1/2) else Int.floor (q * 10 ^ d + 1/2)

/-- The numeric value of `parseFloat(q.toFixed(d))`, as an exact rational. -/
def toFixedQ (d : Nat) (q : ℚ) : ℚ := (fixedUnits d q : ℚ) / 10 ^ d

/-- The string `q.toFixed(d)` (for `d > 0`): optional sign, integer part, dot,
`d` fractional digits. -/
def toFixedChars (d : Nat) (q : ℚ) : List Char :=
  let u := (fixedUnits d q).natAbs
  let digits := natChars (u / 10 ^ d) ++ '.' :: padDigits (u % 10 ^ d) d
  if q < 0 then '-' :: digits else digits

/-- The string `q.toFixed(d)` as a `String`. -/
def toFixedStr (d : Nat) (q : ℚ) : String := ⟨toFixedChars d q⟩

/-- `parseFloat((w / 1e18).toFixed(6))` for a wei amount `w`: the handlers'
wei-to-ETH conversion at 6-decimal precision. -/
def weiToEth6 (w : ℤ) : ℚ := toFixedQ 6 ((w : ℚ) / 10 ^ 18)

/-! ## JSON values and serialization -/

/-- JSON values, as built by the tool handlers and serialized with
`JSON.stringify`.  A number is the exact rational the handler computed (the
source computes IEEE doubles; arithmetic is modelled exactly). -/
inductive Json where
  | null : Json
  | bool (b : Bool) : Json
  | num (q : ℚ) : Json
  | str (s : String) : Json
  | arr (elems : List Json) : Json
  | obj (fields : List (String × Json)) : Json

/-- JSON string escaping for the two characters that must be escaped and occur
in practice (backslash and double quote). -/
def escChar (c : Char) : List Char :=
  if c = Char.ofNat 92 ∨ c = Char.ofNat 34 then [Char.ofNat 92, c] else [c]

/-- Escape a string body for JSON serialization. -/
def escChars (cs : List Char) : List Char := cs.flatMap escChar

/-- The number of decimals a rational is rendered with: the least `k ≤ 20`
with `den ∣ 10^k` (so decimal-valued numbers — the only ones the handlers
produce on the paths the claims exercise — render in the shortest form, as
JavaScript prints them; other denominators are cut off at 20 decimals,
abstracting the float expansion JavaScript would print). -/
def decExp (den : Nat) : Nat := ((List.range 21).find? (fun k => 10 ^ k % den = 0)).getD 20

/-- Rendering of a JSON number. -/
def numChars (q : ℚ) : List Char :=
  let d := decExp q.den
  if d = 0 then intChars q.num
  else
    let u := (fixedUnits d q).natAbs
    (if q < 0 then ['-'] else []) ++ natChars (u / 10 ^ d) ++ '.' :: padDigits (u % 10 ^ d) d

mutual

/-- Canonical serialization of a JSON value: `JSON.stringify` with the
indentation whitespace abstracted away. -/
def stringifyChars : Json → List Char
  | .null => "null".data
  | .bool true => "true".data
  | .bool false => "false".data
  | .num q => numChars q
  | .str s => Char.ofNat 34 :: escChars s.data ++ [Char.ofNat 34]
  | .arr elems => Char.ofNat 91 :: stringifyElems elems ++ [Char.ofNat 93]
  | .obj fields => Char.ofNat 123 :: stringifyFields fields ++ [Char.ofNat 125]

/-- Comma-separated serialization of array elements. -/
def stringifyElems : List Json → List Char
  | [] => []
  | [j] => stringifyChars j
  | j :: rest => stringifyChars j ++ ',' :: stringifyElems rest

/-- Comma-separated serialization of object fields. -/
def stringifyFields : List (String × Json) → List Char
  | [] => []
  | [(k, j)] => Char.ofNat 34 :: escChars k.data ++ Char.ofNat 34 :: ':' :: stringifyChars j
  | (k, j) :: rest =>
      Char.ofNat 34 :: escChars k.data ++ Char.ofNat 34 :: ':' :: stringifyChars j
        ++ ',' :: stringifyFields rest

end

/-- `JSON.stringify` of a JSON value, as a string. -/
def stringify (j : Json) : String := ⟨stringifyChars j⟩

/-- A string is a serialized JSON text when it is the serialization of some
JSON value (this is exactly the set of response texts the JSON-emitting
handlers produce). -/
def ValidJsonText (s : String) : Prop := ∃ j : Json, stringify j = s

/-! ## Tool responses and the tagged error object -/

/-- One entry of the `content` array of a tool response. -/
structure TextContent where
  type : String
  text : String
deriving DecidableEq

/-- The value every tool handler returns: `{ content: [{ type: 'text', text }] }`. -/
structure ToolResponse where
  content : List TextContent
deriving DecidableEq

/-- The response wrapper each handler builds around its serialized body. -/
def mkTextResponse (s : String) : ToolResponse := ⟨[⟨"text", s⟩]⟩

/-- The text of a tool response (every handler emits exactly one content item). -/
def responseText (r : ToolResponse) : String :=
  match r.content with
  | [c] => c.text
  | _ => ""

/-- `ToolErrorOutput` from `src/types.ts`: the tagged error object.  The
`error: true` literal field is implicit in the type and added by the encoder;
absent optional fields are omitted from the serialized object, as
`JSON.stringify` does for `undefined` fields. -/
structure ToolErrorOutput where
  message : String
  contractAddress : Option String := none
  creatorAddress : Option String := none
  ownerAddress : Option String := none
  userAddress : Option String := none
  timestamp : String
deriving DecidableEq

/-- An optional object field: omitted when absent. -/
def optField (k : String) (v : Option String) : List (String × Json) :=
  match v with
  | none => []
  | some s => [(k, .str s)]

/-- JSON encoding of the tagged error object, with the field order the
handlers use (`error`, `message`, the address field when set, `timestamp`). -/
def encodeToolError (e : ToolErrorOutput) : Json :=
  .obj ([("error", .bool true), ("message", .str e.message)]
    ++ optField "contractAddress" e.contractAddress
    ++ optField "creatorAddress" e.creatorAddress
    ++ optField "ownerAddress" e.ownerAddress
    ++ optField "userAddress" e.userAddress
    ++ [("timestamp", .str e.timestamp)])

/-- JSON encoding of a nullable string field. -/
def encodeNullableStr : Option String → Json
  | none => .null
  | some s => .str s

/-! ## getShapeCreatorAnalytics (src/tools/gasback/get-shape-creator-analytics.ts) -/

/-- Environment of upstream reads for `getShapeCreatorAnalytics`: the gasback
contract reads, each an `Except` carrying the rejection message, plus the
ambient clock (`new Date().toISOString()`). -/
structure CreatorAnalyticsEnv where
  getOwnedTokens : Except String (List Nat)
  getTokenTotalGasback : Nat → Except String Nat
  getTokenGasbackBalance : Nat → Except String Nat
  getTokenRegisteredContracts : Nat → Except String (List String)
  now : String

/-- `ShapeCreatorAnalyticsOutput` from `src/types.ts`. -/
structure ShapeCreatorAnalyticsOutput where
  creatorAddress : String
  timestamp : String
  hasTokens : Bool
  totalTokens : Nat
  totalEarnedETH : ℚ
  currentBalanceETH : ℚ
  totalWithdrawnETH : ℚ
  registeredContracts : Nat
deriving DecidableEq

/-- JSON encoding of `ShapeCreatorAnalyticsOutput`, in source field order. -/
def encodeCreatorAnalytics (a : ShapeCreatorAnalyticsOutput) : Json :=
  .obj [("creatorAddress", .str a.creatorAddress), ("timestamp", .str a.timestamp),
    ("hasTokens", .bool a.hasTokens), ("totalTokens", .num a.totalTokens),
    ("totalEarnedETH", .num a.totalEarnedETH), ("currentBalanceETH", .num a.currentBalanceETH),
    ("totalWithdrawnETH", .num a.totalWithdrawnETH),
    ("registeredContracts", .num a.registeredContracts)]

/-- The three parallel reads for one owned token (`Promise.all` inside the
loop); a rejection of any of them rejects the iteration and, since this
handler has no per-token catch, the whole computation. -/
def readTokenStats (env : CreatorAnalyticsEnv) (tokenId : Nat) :
    Except String (Nat × Nat × List String) := do
  let g ← env.getTokenTotalGasback tokenId
  let b ← env.getTokenGasbackBalance tokenId
  let rc ← env.getTokenRegisteredContracts tokenId
  pure (g, b, rc)

/-- The aggregation loop of `getShapeCreatorAnalytics`: wei totals and the
registered-contract count, summed over the owned tokens. -/
def sumTokenStats (env : CreatorAnalyticsEnv) :
    List Nat → Nat × Nat × Nat → Except String (Nat × Nat × Nat)
  | [], acc => pure acc
  | t :: ts, (g, b, rc) => do
    let (tg, tb, trc) ← readTokenStats env t
    sumTokenStats env ts (g + tg, b + tb, rc + trc.length)

/-- The try-block of `getShapeCreatorAnalytics`: the analytics object, or the
first rejection. -/
def creatorAnalyticsCore (creatorAddress : String) (env : CreatorAnalyticsEnv) :
    Except String ShapeCreatorAnalyticsOutput := do
  let ownedTokens ← env.getOwnedTokens
  let base : ShapeCreatorAnalyticsOutput :=
    { creatorAddress := creatorAddress
      timestamp := env.now
      hasTokens := !ownedTokens.isEmpty
      totalTokens := ownedTokens.length
      totalEarnedETH := 0
      currentBalanceETH := 0
      totalWithdrawnETH := 0
      registeredContracts := 0 }
  if ownedTokens.isEmpty then
    pure base
  else do
    let (g, b, rc) ← sumTokenStats env ownedTokens (0, 0, 0)
    pure { base with
      totalEarnedETH := weiToEth6 g
      currentBalanceETH := weiToEth6 b
      totalWithdrawnETH := weiToEth6 ((g : ℤ) - (b : ℤ))
      registeredContracts := rc }

/-- `getShapeCreatorAnalytics` (gasback variant): the analytics serialized as
the response text, or — when any read rejected — the tagged error object. -/
def getShapeCreatorAnalytics (creatorAddress : String) (env : CreatorAnalyticsEnv) :
    ToolResponse :=
  match creatorAnalyticsCore creatorAddress env with
  | .ok a => mkTextResponse (stringify (encodeCreatorAnalytics a))
  | .error e => mkTextResponse (stringify (encodeToolError
      { message := "Error analyzing creator gasback data: " ++ e,
        creatorAddress := some creatorAddress, timestamp := env.now }))

/-! ## getTopShapeCreators (src/tools/get-top-shape-creators.ts, limit-parameterized variant) -/

/-- Environment of upstream reads for `getTopShapeCreators`. -/
structure TopCreatorsEnv where
  totalSupply : Except String Nat
  ownerOf : Nat → Except String String
  getTokenTotalGasback : Nat → Except String Nat
  getTokenGasbackBalance : Nat → Except String Nat
  getTokenRegisteredContracts : Nat → Except String (List String)
  now : String

/-- Per-creator aggregate, as held in the `creatorStats` map. -/
structure CreatorStats where
  address : String
  totalTokens : Nat
  totalEarnedWei : Nat
  currentBalanceWei : Nat
  registeredContracts : Nat
deriving DecidableEq

/-- The zero entry inserted when a creator is first seen. -/
def initStats (owner : String) : CreatorStats := ⟨owner, 0, 0, 0, 0⟩

/-- One token folded into a creator entry. -/
def bumpStats (s : CreatorStats) (g b rc : Nat) : CreatorStats :=
  { s with
      totalTokens := s.totalTokens + 1
      totalEarnedWei := s.totalEarnedWei + g
      currentBalanceWei := s.currentBalanceWei + b
      registeredContracts := s.registeredContracts + rc }

/-- The per-token read block with its inner try/catch: `none` when any of the
four reads rejects, in which case the token is skipped. -/
def readTopToken (env : TopCreatorsEnv) (tokenId : Nat) :
    Option (String × Nat × Nat × Nat) :=
  match env.ownerOf tokenId, env.getTokenTotalGasback tokenId,
      env.getTokenGasbackBalance tokenId, env.getTokenRegisteredContracts tokenId with
  | .ok o, .ok g, .ok b, .ok rc => some (o, g, b, rc.length)
  | _, _, _, _ => none

/-- Update of the `creatorStats` map for one token, preserving insertion
order as a JavaScript `Map` does. -/
def insertToken (m : List (String × CreatorStats)) (owner : String) (g b rc : Nat) :
    List (String × CreatorStats) :=
  match m with
  | [] => [(owner, bumpStats (initStats owner) g b rc)]
  | (k, s) :: rest =>
      if k = owner then (k, bumpStats s g b rc) :: rest
      else (k, s) :: insertToken rest owner g b rc

/-- The token loop of `getTopShapeCreators`: every token id is read once;
failed tokens are skipped, the rest aggregated per owner. -/
def processTokens (env : TopCreatorsEnv) :
    List Nat → List (String × CreatorStats) → List (String × CreatorStats)
  | [], m => m
  | t :: ts, m =>
      match readTopToken env t with
      | none => processTokens env ts m
      | some (o, g, b, rc) => processTokens env ts (insertToken m o g b rc)

/-- One entry of the `topCreators` output list. -/
structure TopCreatorEntry where
  address : String
  totalTokens : Nat
  totalEarnedETH : ℚ
  currentBalanceETH : ℚ
  registeredContracts : Nat
deriving DecidableEq

/-- Conversion of an aggregate to its output form (`.map` in the source). -/
def toEntry (s : CreatorStats) : TopCreatorEntry :=
  ⟨s.address, s.totalTokens, weiToEth6 s.totalEarnedWei, weiToEth6 s.currentBalanceWei,
    s.registeredContracts⟩

/-- The sort order of `.sort((a, b) => b.totalEarnedETH - a.totalEarnedETH)`:
non-increasing total earnings. -/
def entryLe (a b : TopCreatorEntry) : Bool := decide (b.totalEarnedETH ≤ a.totalEarnedETH)

/-- `TopShapeCreatorsOutput` from `src/types.ts`. -/
structure TopShapeCreatorsOutput where
  timestamp : String
  totalCreatorsAnalyzed : Nat
  topCreators : List TopCreatorEntry
deriving DecidableEq

/-- JSON encoding of one `topCreators` entry, in source field order. -/
def encodeTopEntry (e : TopCreatorEntry) : Json :=
  .obj [("address", .str e.address), ("totalTokens", .num e.totalTokens),
    ("totalEarnedETH", .num e.totalEarnedETH), ("currentBalanceETH", .num e.currentBalanceETH),
    ("registeredContracts", .num e.registeredContracts)]

/-- JSON encoding of `TopShapeCreatorsOutput`, in source field order. -/
def encodeTopCreators (o : TopShapeCreatorsOutput) : Json :=
  .obj [("timestamp", .str o.timestamp),
    ("totalCreatorsAnalyzed", .num o.totalCreatorsAnalyzed),
    ("topCreators", .arr (o.topCreators.map encodeTopEntry))]

/-- The try-block of `getTopShapeCreators`: total supply, per-token
aggregation, sort, and truncation to `finalLimit = min(max(1, limit), 100)`. -/
def topShapeCreatorsCore (limit : ℤ) (env : TopCreatorsEnv) :
    Except String TopShapeCreatorsOutput := do
  let totalTokens ← env.totalSupply
  let finalLimit : ℤ := min (max 1 limit) 100
  let base : TopShapeCreatorsOutput := ⟨env.now, 0, []⟩
  if totalTokens = 0 then
    pure base
  else
    let m := processTokens env (List.range' 1 totalTokens) []
    let allCreators := ((m.map (fun p => toEntry p.2)).mergeSort entryLe).take finalLimit.toNat
    pure { base with totalCreatorsAnalyzed := m.length, topCreators := allCreators }

/-- `getTopShapeCreators` (limit-parameterized variant): serialized output, or
the tagged error object when the total-supply read rejected. -/
def getTopShapeCreators (limit : ℤ) (env : TopCreatorsEnv) : ToolResponse :=
  match topShapeCreatorsCore limit env with
  | .ok o => mkTextResponse (stringify (encodeTopCreators o))
  | .error e => mkTextResponse (stringify (encodeToolError
      { message := "Error fetching top Shape creators: " ++ e, timestamp := env.now }))

/-! ## getTopShapeCreators (multicall variant, src/tools/gasback/simulate-gasback-rewards.ts) -/

/-- Environment for the multicall variant.  The source batches `ownerOf` and
the three analytics reads through `multicall` with `allowFailure: true`, in
chunks of 100; the observable outcome is one success-or-failure result per
call, which is what the environment records (batching is performance
plumbing with no observable effect on the result). -/
structure MulticallEnv where
  totalSupply : Except String Nat
  ownerOf : Nat → Option String
  getTokenTotalGasback : Nat → Option Nat
  getTokenGasbackBalance : Nat → Option Nat
  getTokenRegisteredContracts : Nat → Option (List String)
  now : String

/-- The token-owner map: the ids `1..totalSupply` whose `ownerOf` multicall
entry succeeded, in id order. -/
def tokenOwners (env : MulticallEnv) (totalTokens : Nat) : List (Nat × String) :=
  (List.range' 1 totalTokens).filterMap fun tid => (env.ownerOf tid).map fun o => (tid, o)

/-- The aggregation loop of the multicall variant: a token contributes only
when all three of its analytics reads succeeded. -/
def processMulticall (env : MulticallEnv) :
    List (Nat × String) → List (String × CreatorStats) → List (String × CreatorStats)
  | [], m => m
  | (tid, owner) :: rest, m =>
      match env.getTokenTotalGasback tid, env.getTokenGasbackBalance tid,
          env.getTokenRegisteredContracts tid with
      | some g, some b, some rc => processMulticall env rest (insertToken m owner g b rc.length)
      | _, _, _ => processMulticall env rest m

/-- The try-block of the multicall `getTopShapeCreators`: aggregation, sort,
and truncation to the top 25. -/
def topShapeCreatorsMulticallCore (env : MulticallEnv) :
    Except String TopShapeCreatorsOutput := do
  let totalTokens ← env.totalSupply
  let base : TopShapeCreatorsOutput := ⟨env.now, 0, []⟩
  if totalTokens = 0 then
    pure base
  else
    let owners := tokenOwners env totalTokens
    if owners.isEmpty then
      pure base
    else
      let m := processMulticall env owners []
      let top := ((m.map (fun p => toEntry p.2)).mergeSort entryLe).take 25
      pure { base with totalCreatorsAnalyzed := m.length, topCreators := top }

/-- The multicall `getTopShapeCreators`: serialized output, or the tagged
error object when the total-supply read rejected. -/
def getTopShapeCreatorsMulticall (env : MulticallEnv) : ToolResponse :=
  match topShapeCreatorsMulticallCore env with
  | .ok o => mkTextResponse (stringify (encodeTopCreators o))
  | .error e => mkTextResponse (stringify (encodeToolError
      { message := "Error fetching top Shape creators: " ++ e, timestamp := env.now }))

/-! ## getCollectionAnalytics (cached variant) -/

/-- JavaScript `value || null` for an optional string: the empty string is
falsy and collapses to `null`. -/
def jsOrNull : Option String → Option String
  | some v => if v = "" then none else some v
  | none => none

/-- JavaScript `a || b || null` for two optional strings. -/
def jsOrElse (a b : Option String) : Option String :=
  match jsOrNull a with
  | some v => some v
  | none => jsOrNull b

/-- One NFT of the `getNftsForContract` page, with the contract metadata the
handler reads off the first entry.  `contract.totalSupply` is a decimal
string in the SDK; `parseInt` of it is modelled by carrying the parsed
value. -/
structure NftToken where
  tokenId : String
  name : Option String
  imageOriginalUrl : Option String
  imageThumbnailUrl : Option String
  contractName : Option String
  contractSymbol : Option String
  contractTotalSupply : Option Nat
  contractTokenType : Option String
deriving DecidableEq

/-- Environment for `getCollectionAnalytics`: the three sub-requests issued
through `Promise.allSettled`, each independently fulfilled or rejected, plus
the clock.  The floor-price response is passed through verbatim, so it is
carried as a JSON value. -/
structure CollectionEnv where
  getNftsForContract : Except String (List NftToken)
  getOwnersForContract : Except String (List String)
  getFloorPrice : Except String Json
  now : String

/-- One `sampleNfts` output entry. -/
structure SampleNft where
  tokenId : String
  name : Option String
  imageUrl : Option String
deriving DecidableEq

/-- `CollectionAnalyticsOutput` from `src/types.ts` (cached variant). -/
structure CollectionAnalyticsOutput where
  contractAddress : String
  timestamp : String
  name : Option String
  symbol : Option String
  totalSupply : Option Nat
  ownerCount : Option Nat
  contractType : Option String
  sampleNfts : List SampleNft
  floorPrice : Option Json
deriving Inhabited

/-- An NFT mapped to its `sampleNfts` entry. -/
def mkSample (n : NftToken) : SampleNft :=
  ⟨n.tokenId, jsOrNull n.name, jsOrElse n.imageOriginalUrl n.imageThumbnailUrl⟩

/-- The try-block of `getCollectionAnalytics`: start from the all-null
analytics object and fill each field from its own settled sub-result. -/
def buildCollectionAnalytics (contractAddress : String) (env : CollectionEnv) :
    CollectionAnalyticsOutput :=
  let base : CollectionAnalyticsOutput :=
    { contractAddress := contractAddress
      timestamp := env.now
      name := none
      symbol := none
      totalSupply := none
      ownerCount := none
      contractType := none
      sampleNfts := []
      floorPrice := none }
  let a1 :=
    match env.getNftsForContract with
    | .ok (n0 :: rest) =>
        { base with
          name := jsOrNull n0.contractName
          symbol := jsOrNull n0.contractSymbol
          totalSupply := n0.contractTotalSupply
          contractType := jsOrNull n0.contractTokenType
          sampleNfts := ((n0 :: rest).take 5).map mkSample }
    | _ => base
  let a2 :=
    match env.getOwnersForContract with
    | .ok owners => { a1 with ownerCount := some owners.length }
    | .error _ => a1
  match env.getFloorPrice with
  | .ok fp => { a2 with floorPrice := some fp }
  | .error _ => a2

/-- JSON encoding of a nullable number field. -/
def encodeNullableNum : Option Nat → Json
  | none => .null
  | some n => .num n

/-- JSON encoding of one `sampleNfts` entry, in source field order. -/
def encodeSampleNft (s : SampleNft) : Json :=
  .obj [("tokenId", .str s.tokenId), ("name", encodeNullableStr s.name),
    ("imageUrl", encodeNullableStr s.imageUrl)]

/-- JSON encoding of `CollectionAnalyticsOutput`, in source field order. -/
def encodeCollectionAnalytics (a : CollectionAnalyticsOutput) : Json :=
  .obj [("contractAddress", .str a.contractAddress), ("timestamp", .str a.timestamp),
    ("name", encodeNullableStr a.name), ("symbol", encodeNullableStr a.symbol),
    ("totalSupply", encodeNullableNum a.totalSupply),
    ("ownerCount", encodeNullableNum a.ownerCount),
    ("contractType", encodeNullableStr a.contractType),
    ("sampleNfts", .arr (a.sampleNfts.map encodeSampleNft)),
    ("floorPrice", match a.floorPrice with | none => .null | some fp => fp)]

/-- The external cache.  Modelled from the spec: the cache utility module
(`src/utils/cache.ts`, not present under `src/`) is "an optional external
cache store holding serialized tool responses keyed by chain id + contract
address, with a fixed expiry", whose get/set recover their own failures
locally.  The source stores `JSON.stringify(response)` and returns
`JSON.parse(cached)` on a hit; since parse inverts stringify on response
values, the store is modelled as holding the response value itself. -/
def CacheState := String → Option ToolResponse

/-- One `setCached(key, value, ttl)` call. -/
structure CacheWrite where
  key : String
  value : ToolResponse
  ttl : Nat
deriving DecidableEq

/-- `metadata.annotations.cacheTTL` of the cached collection-analytics tool:
`60 * 15` seconds. -/
def collectionCacheTTL : Nat := 60 * 15

/-- The cache key template of the handler:
`mcp:collectionAnalytics:CHAINID:ADDRESS.toLowerCase()`. -/
def collectionCacheKey (chainId : Nat) (contractAddress : String) : String :=
  "mcp:collectionAnalytics:" ++ natStr chainId ++ ":" ++ contractAddress.toLower

/-- Everything observable about one `getCollectionAnalytics` invocation: the
response, the upstream sub-requests issued, and the cache writes performed. -/
structure CollectionCallResult where
  response : ToolResponse
  upstreamCalls : List String
  cacheWrites : List CacheWrite

/-- `getCollectionAnalytics` (cached variant): serve the stored response on a
hit without touching upstream; otherwise fan out the three settled
sub-requests, build the analytics, store the response under the key with the
fixed TTL, and return it. -/
def getCollectionAnalytics (chainId : Nat) (contractAddress : String)
    (cache : CacheState) (env : CollectionEnv) : CollectionCallResult :=
  let cacheKey := collectionCacheKey chainId contractAddress
  match cache cacheKey with
  | some cached => ⟨cached, [], []⟩
  | none =>
      let analytics := buildCollectionAnalytics contractAddress env
      let response := mkTextResponse (stringify (encodeCollectionAnalytics analytics))
      ⟨response, ["getNftsForContract", "getOwnersForContract", "getFloorPrice"],
        [⟨cacheKey, response, collectionCacheTTL⟩]⟩

/-! ## getChainStatus (allSettled variant) -/

/-- A block header as the handler reads it. -/
structure Block where
  number : Nat
  timestamp : Nat
deriving DecidableEq

/-- Environment for `getChainStatus`: the three settled primary sub-requests
and the by-height block reads used for the average-block-time sample. -/
structure ChainStatusEnv where
  getBlock : Except String Block
  getGasPrice : Except String Nat
  getBlockNumber : Except String Nat
  getBlockAt : Int → Except String Block
  now : String

/-- The `gasPrice` output object: raw wei and the two fixed-decimal
conversions, all strings. -/
structure GasPriceInfo where
  wei : String
  gwei : String
  eth : String
deriving DecidableEq

/-- `ChainStatusOutput` as this variant builds it. -/
structure ChainStatusOutput where
  timestamp : String
  network : String
  chainId : Nat
  rpcHealthy : Bool
  gasPrice : Option GasPriceInfo
  avgBlockTime : Option ℚ
deriving DecidableEq

/-- Consecutive timestamp differences of the sampled blocks. -/
def consecDiffs : List Block → List ℤ
  | b1 :: b2 :: rest => ((b1.timestamp : ℤ) - (b2.timestamp : ℤ)) :: consecDiffs (b2 :: rest)
  | _ => []

/-- The average-block-time sample: the three previous blocks are fetched with
`Promise.allSettled`, the fulfilled ones kept, and the mean of consecutive
timestamp differences taken when at least two blocks remain. -/
def avgBlockTimeOf (env : ChainStatusEnv) (latest : Block) : Option ℚ :=
  let validBlocks := ([(latest.number : ℤ) - 1, (latest.number : ℤ) - 2,
    (latest.number : ℤ) - 3].map env.getBlockAt).filterMap Except.toOption
  if 2 ≤ validBlocks.length then
    let timeDiffs := consecDiffs validBlocks
    some ((timeDiffs.sum : ℚ) / (timeDiffs.length : ℚ))
  else
    none

/-- `getChainStatus` (the `Promise.allSettled` variant of `part_004`): every
sub-request settles independently; each output field is filled from its own
result and a failed one leaves its field at its null/false initial value. -/
def getChainStatus (isMainnet : Bool) (chainId : Nat) (env : ChainStatusEnv) :
    ChainStatusOutput :=
  let base : ChainStatusOutput :=
    { timestamp := env.now
      network := if isMainnet then "shape-mainnet" else "shape-sepolia"
      chainId := chainId
      rpcHealthy := false
      gasPrice := none
      avgBlockTime := none }
  let r1 :=
    match env.getBlock with
    | .ok latest =>
        { base with rpcHealthy := true, avgBlockTime := avgBlockTimeOf env latest }
    | .error _ => base
  match env.getGasPrice with
  | .ok w =>
      let info : GasPriceInfo :=
        ⟨natStr w, toFixedStr 4 ((w : ℚ) / 10 ^ 9), toFixedStr 12 ((w : ℚ) / 10 ^ 18)⟩
      { r1 with gasPrice := some info }
  | .error _ => r1

/-- JSON encoding of `ChainStatusOutput`, in source field order. -/
def encodeChainStatus (o : ChainStatusOutput) : Json :=
  .obj [("timestamp", .str o.timestamp), ("network", .str o.network),
    ("chainId", .num o.chainId), ("rpcHealthy", .bool o.rpcHealthy),
    ("gasPrice", match o.gasPrice with
      | none => .null
      | some g => .obj [("wei", .str g.wei), ("gwei", .str g.gwei), ("eth", .str g.eth)]),
    ("avgBlockTime", match o.avgBlockTime with
      | none => .null
      | some q => .num q)]

/-- The full `getChainStatus` response: the status object serialized (the
outer catch is unreachable in this model, since every sub-request settles
individually). -/
def getChainStatusResponse (isMainnet : Bool) (chainId : Nat) (env : ChainStatusEnv) :
    ToolResponse :=
  mkTextResponse (stringify (encodeChainStatus (getChainStatus isMainnet chainId env)))

/-! ## getStackAchievements (ENS-resolving variant) -/

/-- One medal as returned by `getStackMedals`. -/
structure Medal where
  stackOwner : String
  stackId : Nat
  medalUID : String
  medalTier : Nat
  medalData : String
  timestamp : Nat
deriving DecidableEq

/-- Environment for `getStackAchievements`.  `isAddr` is the outcome of
viem's `isAddress` on the input (an external library predicate);
`getEnsAddress` is the mainnet ENS lookup (`.ok none` models a `null`
resolution); `addressToTokenId` and `getStackMedals` are the stack contract
reads for the resolved address; `isoOfEpoch` models
`new Date(ms).toISOString()`. -/
structure StackEnv where
  isAddr : String → Bool
  getEnsAddress : Except String (Option String)
  addressToTokenId : Except String Nat
  getStackMedals : Except String (List Medal)
  now : String
  isoOfEpoch : Nat → String

/-- The `medalsByTier` buckets. -/
structure MedalsByTier where
  bronze : Nat
  silver : Nat
  gold : Nat
  special : Nat
deriving DecidableEq

/-- The `lastMedalClaimed` output object. -/
structure LastMedal where
  medalUID : String
  claimedAt : String
deriving DecidableEq

/-- `StackAchievementsOutput` from `src/types.ts`. -/
structure StackAchievementsOutput where
  userAddress : String
  timestamp : String
  hasStack : Bool
  totalMedals : Nat
  medalsByTier : MedalsByTier
  lastMedalClaimed : Option LastMedal
deriving DecidableEq

/-- JSON encoding of `StackAchievementsOutput`, in source field order. -/
def encodeStackOutput (o : StackAchievementsOutput) : Json :=
  .obj [("userAddress", .str o.userAddress), ("timestamp", .str o.timestamp),
    ("hasStack", .bool o.hasStack), ("totalMedals", .num o.totalMedals),
    ("medalsByTier", .obj [("bronze", .num o.medalsByTier.bronze),
      ("silver", .num o.medalsByTier.silver), ("gold", .num o.medalsByTier.gold),
      ("special", .num o.medalsByTier.special)]),
    ("lastMedalClaimed", match o.lastMedalClaimed with
      | none => .null
      | some lm => .obj [("medalUID", .str lm.medalUID), ("claimedAt", .str lm.claimedAt)])]

/-- One medal counted into its tier bucket: tier 1 bronze, 2 silver, 3 gold,
anything else special. -/
def bucketMedal (m : Medal) (acc : MedalsByTier) : MedalsByTier :=
  if m.medalTier = 1 then { acc with bronze := acc.bronze + 1 }
  else if m.medalTier = 2 then { acc with silver := acc.silver + 1 }
  else if m.medalTier = 3 then { acc with gold := acc.gold + 1 }
  else { acc with special := acc.special + 1 }

/-- The tier-counting half of the medal loop. -/
def countTiers : List Medal → MedalsByTier → MedalsByTier
  | [], acc => acc
  | m :: rest, acc => countTiers rest (bucketMedal m acc)

/-- The most-recent-medal half of the medal loop: starting from
`(0, null)`, a medal takes over only when its timestamp strictly exceeds the
running one. -/
def lastScan : List Medal → Nat × Option String → Nat × Option String
  | [], acc => acc
  | m :: rest, (ts, uid) =>
      lastScan rest (if ts < m.timestamp then (m.timestamp, some m.medalUID) else (ts, uid))

/-- The medal summary for a stack: bucket counts and the `lastMedalClaimed`
object (null when the running UID stayed null — or, through JavaScript
truthiness, when the winning UID is the empty string). -/
def medalSummary (env : StackEnv) (medals : List Medal) : MedalsByTier × Option LastMedal :=
  let byTier := countTiers medals ⟨0, 0, 0, 0⟩
  let scan := lastScan medals (0, none)
  (byTier, (jsOrNull scan.2).map fun uid => ⟨uid, env.isoOfEpoch (scan.1 * 1000)⟩)

/-- Everything observable about one `getStackAchievements` invocation: the
response and the stack-contract reads performed. -/
structure StackCallResult where
  response : ToolResponse
  stackReads : List String
deriving DecidableEq

/-- The part of `getStackAchievements` that runs once an address is resolved:
the stack id lookup, then — only for a nonzero id — the medal read. -/
def stackAchievementsResolved (env : StackEnv) (resolvedAddress : String) : StackCallResult :=
  match env.addressToTokenId with
  | .error e =>
      ⟨mkTextResponse (stringify (encodeToolError
        { message := "Error fetching Stack achievements: " ++ e,
          userAddress := some resolvedAddress, timestamp := env.now })),
        ["addressToTokenId"]⟩
  | .ok stackId =>
      if stackId = 0 then
        ⟨mkTextResponse (stringify (encodeStackOutput
          { userAddress := resolvedAddress
            timestamp := env.now
            hasStack := false
            totalMedals := 0
            medalsByTier := ⟨0, 0, 0, 0⟩
            lastMedalClaimed := none })), ["addressToTokenId"]⟩
      else
        match env.getStackMedals with
        | .error e =>
            ⟨mkTextResponse (stringify (encodeToolError
              { message := "Error fetching Stack achievements: " ++ e,
                userAddress := some resolvedAddress, timestamp := env.now })),
              ["addressToTokenId", "getStackMedals"]⟩
        | .ok medals =>
            ⟨mkTextResponse (stringify (encodeStackOutput
              { userAddress := resolvedAddress
                timestamp := env.now
                hasStack := true
                totalMedals := medals.length
                medalsByTier := (medalSummary env medals).1
                lastMedalClaimed := (medalSummary env medals).2 })),
              ["addressToTokenId", "getStackMedals"]⟩

/-- `getStackAchievements` (ENS-resolving variant): a valid hex address is
used directly; otherwise the input goes through the mainnet ENS lookup, and a
null resolution returns the tagged error object before any stack-contract
read. -/
def getStackAchievements (userAddress : String) (env : StackEnv) : StackCallResult :=
  if env.isAddr userAddress then
    stackAchievementsResolved env userAddress
  else
    match env.getEnsAddress with
    | .error e =>
        ⟨mkTextResponse (stringify (encodeToolError
          { message := "Error fetching Stack achievements: " ++ e,
            userAddress := some userAddress, timestamp := env.now })), []⟩
    | .ok none =>
        ⟨mkTextResponse (stringify (encodeToolError
          { message := "Unable to resolve ENS name: " ++ userAddress,
            userAddress := some userAddress, timestamp := env.now })), []⟩
    | .ok (some ensAddress) => stackAchievementsResolved env ensAddress

/-! ## getShapeNft (JSON variant) -/

/-- Environment for `getShapeNft`: the single Alchemy SDK call, whose
`OwnedNftsResponse` the handler serializes verbatim, so it is carried as a
JSON value. -/
structure NftEnv where
  getNftsForOwner : Except String Json
  now : String

/-- `getShapeNft` (the variant that serializes the SDK response wholesale):
a missing API key and a rejected SDK call both produce a plain
`Error: ...` string as the response text — not a tagged error object. -/
def getShapeNft (alchemyApiKeySet : Bool) (address : String) (env : NftEnv) : ToolResponse :=
  if !alchemyApiKeySet then
    mkTextResponse
      "Error: ALCHEMY_API_KEY environment variable is not set. Please set your Alchemy API key."
  else
    match env.getNftsForOwner with
    | .ok resp => mkTextResponse (stringify resp)
    | .error e => mkTextResponse ("Error: " ++ e)

/-! ## Proof-helper definitions -/

/-- The number denoted by a digit string (left fold over base-10 digits). -/
def valOfChars (cs : List Char) : Nat := cs.foldl (fun a c => 10 * a + (c.toNat - 48)) 0

/-- Association-list lookup on the `creatorStats` map. -/
def lookupStats : List (String × CreatorStats) → String → Option CreatorStats
  | [], _ => none
  | (k, s) :: rest, key => if k = key then some s else lookupStats rest key

/-- The token ids of a list owned by a given creator. -/
def tokensOf (own : Nat → String) (k : String) (ts : List Nat) : List Nat :=
  ts.filter fun t => own t == k

/-- The cumulative effect on one creator entry of folding a list of tokens:
each per-token read of the tokens that creator holds, summed. -/
def addTo (own : Nat → String) (g b rcl : Nat → Nat) (s0 : CreatorStats) (k : String)
    (ts : List Nat) : CreatorStats :=
  { s0 with
      totalTokens := s0.totalTokens + (tokensOf own k ts).length
      totalEarnedWei := s0.totalEarnedWei + ((tokensOf own k ts).map g).sum
      currentBalanceWei := s0.currentBalanceWei + ((tokensOf own k ts).map b).sum
      registeredContracts := s0.registeredContracts + ((tokensOf own k ts).map rcl).sum }

/-! ## Concrete fixtures used by witnesses and counterexamples -/

/-- A fixed request time. -/
def nowStr : String := "2024-05-01T00:00:00.000Z"

/-- Sample per-token total gasback, in wei. -/
def gWit (t : Nat) : Nat := t * 10 ^ 18

/-- Sample per-token gasback balance, in wei. -/
def bWit (t : Nat) : Nat := t * 10 ^ 17

/-- Sample per-token registered contracts. -/
def rcWit (t : Nat) : List String := List.replicate t "0xfeed"

/-- A creator-analytics environment where every read succeeds. -/
def creatorEnvOk : CreatorAnalyticsEnv :=
  { getOwnedTokens := .ok [1, 2]
    getTokenTotalGasback := fun t => .ok (gWit t)
    getTokenGasbackBalance := fun t => .ok (bWit t)
    getTokenRegisteredContracts := fun t => .ok (rcWit t)
    now := nowStr }

/-- A creator-analytics environment whose contract reads report a balance
above the total earned. -/
def creatorEnvNeg : CreatorAnalyticsEnv :=
  { getOwnedTokens := .ok [1]
    getTokenTotalGasback := fun _ => .ok 0
    getTokenGasbackBalance := fun _ => .ok (5 * 10 ^ 18)
    getTokenRegisteredContracts := fun _ => .ok []
    now := nowStr }

/-- A creator-analytics environment whose primary read rejects. -/
def creatorEnvErr : CreatorAnalyticsEnv :=
  { getOwnedTokens := .error "rpc down"
    getTokenTotalGasback := fun _ => .ok 0
    getTokenGasbackBalance := fun _ => .ok 0
    getTokenRegisteredContracts := fun _ => .ok []
    now := nowStr }

/-- The expected analytics output on `creatorEnvOk`. -/
def creatorOutWit : ShapeCreatorAnalyticsOutput :=
  { creatorAddress := "0xcafe"
    timestamp := nowStr
    hasTokens := true
    totalTokens := 2
    totalEarnedETH := weiToEth6 (3 * 10 ^ 18)
    currentBalanceETH := weiToEth6 (3 * 10 ^ 17)
    totalWithdrawnETH := weiToEth6 ((3 * 10 ^ 18 : ℤ) - (3 * 10 ^ 17 : ℤ))
    registeredContracts := 3 }

/-- A top-creators environment with two tokens held by one owner. -/
def topEnvWit : TopCreatorsEnv :=
  { totalSupply := .ok 2
    ownerOf := fun _ => .ok "0xowner"
    getTokenTotalGasback := fun t => .ok (gWit t)
    getTokenGasbackBalance := fun t => .ok (bWit t)
    getTokenRegisteredContracts := fun t => .ok (rcWit t)
    now := nowStr }

/-- A top-creators environment whose total-supply read rejects. -/
def topEnvErr : TopCreatorsEnv := { topEnvWit with totalSupply := .error "rpc down" }

/-- A multicall environment with two tokens held by one owner. -/
def multiEnvWit : MulticallEnv :=
  { totalSupply := .ok 2
    ownerOf := fun _ => some "0xowner"
    getTokenTotalGasback := fun t => some (gWit t)
    getTokenGasbackBalance := fun t => some (bWit t)
    getTokenRegisteredContracts := fun t => some (rcWit t)
    now := nowStr }

/-- A multicall environment whose total-supply read rejects. -/
def multiEnvErr : MulticallEnv := { multiEnvWit with totalSupply := .error "rpc down" }

/-- A sample NFT of a collection page. -/
def nftTokenWit : NftToken :=
  { tokenId := "1"
    name := some "First"
    imageOriginalUrl := some "https://img.example/1.png"
    imageThumbnailUrl := none
    contractName := some "Sample Collection"
    contractSymbol := some "SMPL"
    contractTotalSupply := some 1000
    contractTokenType := some "ERC721" }

/-- A collection environment where the floor-price sub-request fails but the
other two succeed. -/
def collectionEnvWit : CollectionEnv :=
  { getNftsForContract := .ok [nftTokenWit]
    getOwnersForContract := .ok ["0xa", "0xb"]
    getFloorPrice := .error "floor price unavailable"
    now := nowStr }

/-- The empty cache. -/
def emptyCache : CacheState := fun _ => none

/-- A previously stored response. -/
def cachedResponseWit : ToolResponse := mkTextResponse "cached body"

/-- A cache holding `cachedResponseWit` under the key for chain 360 and the
address `0xAbCd`. -/
def hitCache : CacheState :=
  fun k => if k = collectionCacheKey 360 "0xAbCd" then some cachedResponseWit else none

/-- A chain-status environment where the gas-price sub-request fails but the
latest-block read succeeds. -/
def chainEnvWit : ChainStatusEnv :=
  { getBlock := .ok ⟨1000, 17000000⟩
    getGasPrice := .error "gas oracle down"
    getBlockNumber := .ok 1000
    getBlockAt := fun h =>
      if h = 999 then .ok ⟨999, 16999998⟩
      else if h = 998 then .ok ⟨998, 16999996⟩
      else .error "pruned"
    now := nowStr }

/-- The base stack environment: hex inputs accepted, ENS resolving to null, a
stack id of 7, no medals. -/
def stackEnvBase : StackEnv :=
  { isAddr := fun s => s == "0xabc123"
    getEnsAddress := .ok none
    addressToTokenId := .ok 7
    getStackMedals := .ok []
    now := nowStr
    isoOfEpoch := fun n => "epoch:" ++ natStr n }

/-- A stack environment holding one medal whose on-chain timestamp is 0. -/
def stackEnvZeroTs : StackEnv :=
  { stackEnvBase with getStackMedals := .ok [⟨"0xowner", 7, "medal-1", 1, "", 0⟩] }

/-- A stack environment holding three medals with distinct tiers and
timestamps. -/
def stackEnvMedals : StackEnv :=
  { stackEnvBase with
      getStackMedals := .ok [⟨"0xowner", 7, "m1", 1, "", 100⟩,
        ⟨"0xowner", 7, "m2", 5, "", 250⟩, ⟨"0xowner", 7, "m3", 3, "", 200⟩] }

/-- A stack environment whose stack-id read rejects. -/
def stackEnvErr : StackEnv := { stackEnvBase with addressToTokenId := .error "rpc down" }

/-- An NFT environment whose SDK call rejects. -/
def nftEnvBoom : NftEnv := ⟨.error "boom", nowStr⟩

/-- An NFT environment whose SDK call succeeds. -/
def nftEnvOk : NftEnv := ⟨.ok (.obj [("totalCount", .num 0)]), nowStr⟩

/-! ## First-character facts about the serialization -/

theorem natChars_ne_nil (n : Nat) : natChars n ≠ [] := by
  rw [natChars]
  split <;> simp

theorem natChars_head_digit (n : Nat) :
    ∃ k ≤ 9, (natChars n).head? = some (digitChar k) := by
  induction n using Nat.strong_induction_on with
  | _ n ih =>
    rw [natChars]
    split
    · exact ⟨n, by omega, rfl⟩
    · rcases ih (n / 10) (Nat.div_lt_self (by omega) (by omega)) with ⟨k, hk, hh⟩
      refine ⟨k, hk, ?_⟩
      rw [List.head?_append_of_ne_nil _ (natChars_ne_nil _)] at *
      exact hh

theorem digitChar_toNat (k : Nat) (hk : k ≤ 9) : (digitChar k).toNat = 48 + k := by
  interval_cases k <;> decide

/-- Every serialized JSON value starts with a brace, bracket, quote, the first
letter of a literal, a minus sign, or a digit — in particular never with an
uppercase letter. -/
theorem stringifyChars_head_not_upper (j : Json) (c : Char)
    (h : (stringifyChars j).head? = some c) : ¬(65 ≤ c.toNat ∧ c.toNat ≤ 90) := by
  intro hc
  cases j with
  | null => simp [stringifyChars] at h; subst h; exact absurd hc (by decide)
  | bool b =>
      cases b <;> (simp [stringifyChars] at h; subst h; exact absurd hc (by decide))
  | num q =>
      rw [stringifyChars, numChars] at h
      simp only [] at h
      split at h
      · rw [intChars] at h
        split at h
        · simp at h; subst h; exact absurd hc (by decide)
        · rcases natChars_head_digit q.num.natAbs with ⟨k, hk, hh⟩
          rw [hh] at h
          injection h with h
          rw [← h, digitChar_toNat k hk] at hc
          omega
      · split at h
        · simp at h; subst h; exact absurd hc (by decide)
        · simp only [List.nil_append] at h
          rw [List.head?_append_of_ne_nil _ (natChars_ne_nil _)] at h
          rcases natChars_head_digit ((fixedUnits (decExp q.den) q).natAbs / 10 ^ decExp q.den)
            with ⟨k, hk, hh⟩
          rw [hh] at h
          injection h with h
          rw [← h, digitChar_toNat k hk] at hc
          omega
  | str s => simp [stringifyChars] at h; subst h; exact absurd hc (by decide)
  | arr elems => simp [stringifyChars] at h; subst h; exact absurd hc (by decide)
  | obj fields => simp [stringifyChars] at h; subst h; exact absurd hc (by decide)

/-- A string starting with an uppercase letter is not serialized JSON. -/
theorem not_validJsonText_of_upper_head (s : String) (c : Char)
    (hh : s.data.head? = some c) (hc : 65 ≤ c.toNat ∧ c.toNat ≤ 90) :
    ¬ValidJsonText s := by
  rintro ⟨j, hj⟩
  apply stringifyChars_head_not_upper j c _ hc
  have hd : stringifyChars j = s.data := by
    simpa [stringify] using congrArg String.data hj
  rw [hd]
  exact hh


/-! ## Response lemmas -/

theorem responseText_mkTextResponse (s : String) : responseText (mkTextResponse s) = s := rfl

/-! ## Claim C8: unresolvable ENS input -/

/-- **C8.** For `getStackAchievements`, whenever the `userAddress` input is
not a valid hex address and the ENS lookup resolves to no address, the tool
returns the tagged error object — `error: true`, a message naming the
unresolvable input, the `userAddress`, and a timestamp — and performs no read
of the stack contract for that request. -/
theorem c8_unresolvable_ens_tagged_error_no_stack_read (userAddress : String) (env : StackEnv)
    (h1 : env.isAddr userAddress = false) (h2 : env.getEnsAddress = .ok none) :
    getStackAchievements userAddress env =
      ⟨mkTextResponse (stringify (encodeToolError
        { message := "Unable to resolve ENS name: " ++ userAddress
          userAddress := some userAddress
          timestamp := env.now })), []⟩ := by
  simp [getStackAchievements, h1, h2]

theorem c8_witness :
    stackEnvBase.isAddr "vitalik.eth" = false ∧ stackEnvBase.getEnsAddress = .ok none ∧
    getStackAchievements "vitalik.eth" stackEnvBase =
      ⟨mkTextResponse (stringify (encodeToolError
        { message := "Unable to resolve ENS name: " ++ "vitalik.eth"
          userAddress := some "vitalik.eth"
          timestamp := stackEnvBase.now })), []⟩ :=
  ⟨by decide, rfl,
    c8_unresolvable_ens_tagged_error_no_stack_read "vitalik.eth" stackEnvBase (by decide) rfl⟩

/-! ## Claim C1: uniform error wrapping -/

/-- **C1 (counterexample).** The claim says every handler, on a thrown error,
returns a tagged error object and never a bare string.  The `getShapeNft`
handler's catch branch returns the bare string `Error: <message>`, which is
not the serialization of any tagged error object. -/
theorem c1_counterexample :
    getShapeNft true "0xabc123" nftEnvBoom = mkTextResponse ("Error: " ++ "boom") ∧
    ¬∃ err : ToolErrorOutput,
      responseText (getShapeNft true "0xabc123" nftEnvBoom) = stringify (encodeToolError err) := by
  refine ⟨rfl, ?_⟩
  rintro ⟨err, he⟩
  rw [show responseText (getShapeNft true "0xabc123" nftEnvBoom) = "Error: boom" from rfl] at he
  exact not_validJsonText_of_upper_head "Error: boom" 'E' rfl (by decide) ⟨_, he.symm⟩

/-- **C1 (amended).** Every embedded handler recovers a thrown error into a
normal response.  All of them except `getShapeNft` (and the transaction-based
`getShapeCreatorAnalytics` variant, whose catch branch likewise emits a plain
string) return the serialized tagged error object carrying `error: true`, the
message, and a timestamp; `getShapeNft` returns the bare string
`Error: <message>` instead. -/
theorem c1_amended_error_wrapping :
    (∀ (limit : ℤ) (env : TopCreatorsEnv) (e : String), env.totalSupply = .error e →
      getTopShapeCreators limit env = mkTextResponse (stringify (encodeToolError
        { message := "Error fetching top Shape creators: " ++ e, timestamp := env.now }))) ∧
    (∀ (env : MulticallEnv) (e : String), env.totalSupply = .error e →
      getTopShapeCreatorsMulticall env = mkTextResponse (stringify (encodeToolError
        { message := "Error fetching top Shape creators: " ++ e, timestamp := env.now }))) ∧
    (∀ (ca : String) (env : CreatorAnalyticsEnv) (e : String),
      creatorAnalyticsCore ca env = .error e →
      getShapeCreatorAnalytics ca env = mkTextResponse (stringify (encodeToolError
        { message := "Error analyzing creator gasback data: " ++ e
          creatorAddress := some ca
          timestamp := env.now }))) ∧
    (∀ (ua : String) (env : StackEnv) (e : String), env.isAddr ua = true →
      env.addressToTokenId = .error e →
      getStackAchievements ua env = ⟨mkTextResponse (stringify (encodeToolError
        { message := "Error fetching Stack achievements: " ++ e
          userAddress := some ua
          timestamp := env.now })), ["addressToTokenId"]⟩) ∧
    (∀ (addr : String) (env : NftEnv) (e : String), env.getNftsForOwner = .error e →
      getShapeNft true addr env = mkTextResponse ("Error: " ++ e)) := by
  refine ⟨?_, ?_, ?_, ?_, ?_⟩
  · intro limit env e h
    have hcore : topShapeCreatorsCore limit env = .error e := by
      unfold topShapeCreatorsCore
      rw [h]
      rfl
    unfold getTopShapeCreators
    rw [hcore]
  · intro env e h
    have hcore : topShapeCreatorsMulticallCore env = .error e := by
      unfold topShapeCreatorsMulticallCore
      rw [h]
      rfl
    unfold getTopShapeCreatorsMulticall
    rw [hcore]
  · intro ca env e h
    unfold getShapeCreatorAnalytics
    rw [h]
  · intro ua env e h1 h2
    simp [getStackAchievements, h1, stackAchievementsResolved, h2]
  · intro addr env e h
    simp [getShapeNft, h]

theorem c1_amended_witness :
    topEnvErr.totalSupply = .error "rpc down" ∧
    getTopShapeCreators 50 topEnvErr = mkTextResponse (stringify (encodeToolError
      { message := "Error fetching top Shape creators: " ++ "rpc down"
        timestamp := topEnvErr.now })) ∧
    creatorAnalyticsCore "0xcafe" creatorEnvErr = .error "rpc down" ∧
    getShapeCreatorAnalytics "0xcafe" creatorEnvErr = mkTextResponse (stringify (encodeToolError
      { message := "Error analyzing creator gasback data: " ++ "rpc down"
        creatorAddress := some "0xcafe"
        timestamp := creatorEnvErr.now })) ∧
    getStackAchievements "0xabc123" stackEnvErr =
      ⟨mkTextResponse (stringify (encodeToolError
        { message := "Error fetching Stack achievements: " ++ "rpc down"
          userAddress := some "0xabc123"
          timestamp := stackEnvErr.now })), ["addressToTokenId"]⟩ ∧
    getShapeNft true "0xabc123" nftEnvBoom = mkTextResponse ("Error: " ++ "boom") :=
  ⟨rfl,
    c1_amended_error_wrapping.1 50 topEnvErr "rpc down" rfl,
    rfl,
    c1_amended_error_wrapping.2.2.1 "0xcafe" creatorEnvErr "rpc down" rfl,
    c1_amended_error_wrapping.2.2.2.1 "0xabc123" stackEnvErr "rpc down" (by decide) rfl,
    c1_amended_error_wrapping.2.2.2.2 "0xabc123" nftEnvBoom "boom" rfl⟩

/-! ## Claim C5: responses are serialized typed DTOs -/

/-- **C5 (counterexample).** The claim says every tool response text parses
as valid JSON matching the tool's declared output shape.  `getShapeNft`
answers a missing API key with a plain English sentence, which is not
serialized JSON at all. -/
theorem c5_counterexample :
    responseText (getShapeNft false "0xabc123" nftEnvOk) =
      "Error: ALCHEMY_API_KEY environment variable is not set. Please set your Alchemy API key." ∧
    ¬ValidJsonText (responseText (getShapeNft false "0xabc123" nftEnvOk)) := by
  refine ⟨rfl, ?_⟩
  rw [show responseText (getShapeNft false "0xabc123" nftEnvOk) =
    "Error: ALCHEMY_API_KEY environment variable is not set. Please set your Alchemy API key."
    from rfl]
  exact not_validJsonText_of_upper_head _ 'E' rfl (by decide)

/-- **C5 (amended).** Every tool response except those of `getShapeNft` and
of the transaction-based `getShapeCreatorAnalytics` variant is the JSON
serialization of a value of the tool's declared output shape: its success
DTO or the tagged error object.  The exceptions: `getShapeNft`'s missing-key
and catch branches emit plain `Error: ...` strings, its human-readable
variant formats a plain-text listing, and its other variants serialize the
raw SDK response rather than a declared DTO; the transaction-analytics
`getShapeCreatorAnalytics` catch returns the bare string
`Error analyzing Shape creator metrics: <message>`.  The theorem below
proves the serialization property for each embedded non-excepted handler,
on every path. -/
theorem c5_amended_responses_serialize_dtos :
    (∀ (ca : String) (env : CreatorAnalyticsEnv),
      (∃ a, responseText (getShapeCreatorAnalytics ca env)
          = stringify (encodeCreatorAnalytics a)) ∨
      (∃ err, responseText (getShapeCreatorAnalytics ca env)
          = stringify (encodeToolError err))) ∧
    (∀ (limit : ℤ) (env : TopCreatorsEnv),
      (∃ o, responseText (getTopShapeCreators limit env) = stringify (encodeTopCreators o)) ∨
      (∃ err, responseText (getTopShapeCreators limit env) = stringify (encodeToolError err))) ∧
    (∀ (env : MulticallEnv),
      (∃ o, responseText (getTopShapeCreatorsMulticall env) = stringify (encodeTopCreators o)) ∨
      (∃ err, responseText (getTopShapeCreatorsMulticall env)
          = stringify (encodeToolError err))) ∧
    (∀ (chainId : Nat) (ca : String) (cache : CacheState) (env : CollectionEnv),
      cache (collectionCacheKey chainId ca) = none →
      ∃ a, responseText (getCollectionAnalytics chainId ca cache env).response
          = stringify (encodeCollectionAnalytics a)) ∧
    (∀ (isMainnet : Bool) (chainId : Nat) (env : ChainStatusEnv),
      ∃ o, responseText (getChainStatusResponse isMainnet chainId env)
          = stringify (encodeChainStatus o)) ∧
    (∀ (ua : String) (env : StackEnv),
      (∃ o, responseText (getStackAchievements ua env).response
          = stringify (encodeStackOutput o)) ∨
      (∃ err, responseText (getStackAchievements ua env).response
          = stringify (encodeToolError err))) := by
  refine ⟨?_, ?_, ?_, ?_, ?_, ?_⟩
  · intro ca env
    cases h : creatorAnalyticsCore ca env with
    | ok a =>
        left
        exact ⟨a, by unfold getShapeCreatorAnalytics; rw [h]; rfl⟩
    | error e =>
        right
        unfold getShapeCreatorAnalytics
        rw [h]
        exact ⟨_, rfl⟩
  · intro limit env
    cases h : topShapeCreatorsCore limit env with
    | ok o =>
        left
        exact ⟨o, by unfold getTopShapeCreators; rw [h]; rfl⟩
    | error e =>
        right
        unfold getTopShapeCreators
        rw [h]
        exact ⟨_, rfl⟩
  · intro env
    cases h : topShapeCreatorsMulticallCore env with
    | ok o =>
        left
        exact ⟨o, by unfold getTopShapeCreatorsMulticall; rw [h]; rfl⟩
    | error e =>
        right
        unfold getTopShapeCreatorsMulticall
        rw [h]
        exact ⟨_, rfl⟩
  · intro chainId ca cache env hmiss
    refine ⟨buildCollectionAnalytics ca env, ?_⟩
    simp only [getCollectionAnalytics]
    rw [hmiss]
    rfl
  · intro isMainnet chainId env
    exact ⟨getChainStatus isMainnet chainId env, rfl⟩
  · intro ua env
    unfold getStackAchievements
    by_cases h1 : env.isAddr ua <;> simp [h1]
    case pos =>
      unfold stackAchievementsResolved
      cases h2 : env.addressToTokenId with
      | error e => right; exact ⟨_, rfl⟩
      | ok stackId =>
          by_cases h3 : stackId = 0 <;> simp [h3]
          case pos => left; exact ⟨_, rfl⟩
          case neg =>
            cases h4 : env.getStackMedals with
            | error e => right; exact ⟨_, rfl⟩
            | ok medals => left; exact ⟨_, rfl⟩
    case neg =>
      cases h2 : env.getEnsAddress with
      | error e => right; exact ⟨_, rfl⟩
      | ok oa =>
          cases oa with
          | none => right; exact ⟨_, rfl⟩
          | some a =>
              unfold stackAchievementsResolved
              cases h3 : env.addressToTokenId with
              | error e => right; exact ⟨_, rfl⟩
              | ok stackId =>
                  by_cases h4 : stackId = 0 <;> simp [h4]
                  case pos => left; exact ⟨_, rfl⟩
                  case neg =>
                    cases h5 : env.getStackMedals with
                    | error e => right; exact ⟨_, rfl⟩
                    | ok medals => left; exact ⟨_, rfl⟩

theorem c5_amended_witness :
    emptyCache (collectionCacheKey 360 "0xAbCd") = none ∧
    (∃ a, responseText (getCollectionAnalytics 360 "0xAbCd" emptyCache collectionEnvWit).response
        = stringify (encodeCollectionAnalytics a)) :=
  ⟨rfl, c5_amended_responses_serialize_dtos.2.2.2.1 360 "0xAbCd" emptyCache collectionEnvWit rfl⟩

/-! ## Medal-loop lemmas -/

theorem countTiers_total (ms : List Medal) (acc : MedalsByTier) :
    (countTiers ms acc).bronze + (countTiers ms acc).silver + (countTiers ms acc).gold +
      (countTiers ms acc).special =
      acc.bronze + acc.silver + acc.gold + acc.special + ms.length := by
  induction ms generalizing acc with
  | nil => simp [countTiers]
  | cons m rest ih =>
      rw [countTiers, ih]
      unfold bucketMedal
      split_ifs <;> simp <;> omega

theorem lastScan_isSome (ms : List Medal) (t : Nat) (u : String) :
    (lastScan ms (t, some u)).2.isSome := by
  induction ms generalizing t u with
  | nil => rfl
  | cons m rest ih =>
      rw [lastScan]
      split
      · exact ih _ _
      · exact ih _ _

theorem lastScan_none_iff (ms : List Medal) :
    (lastScan ms (0, none)).2 = none ↔ ∀ m ∈ ms, m.timestamp = 0 := by
  induction ms with
  | nil => simp [lastScan]
  | cons m rest ih =>
      rw [lastScan]
      by_cases h : 0 < m.timestamp
      · simp only [h, if_pos]
        constructor
        · intro hn
          exfalso
          have hs := lastScan_isSome rest m.timestamp m.medalUID
          rw [hn] at hs
          simp at hs
        · intro hall
          exact absurd (hall m (by simp)) (by omega)
      · have h0 : m.timestamp = 0 := by omega
        simp only [h, if_neg, not_false_iff]
        rw [ih]
        constructor
        · intro hall x hx
          rcases List.mem_cons.mp hx with heq | hmem
          · rw [heq]; exact h0
          · exact hall x hmem
        · intro hall x hx
          exact hall x (List.mem_cons_of_mem _ hx)

theorem lastScan_result (ms : List Medal) :
    ∀ t0 u0, lastScan ms (t0, u0) = (t0, u0) ∨
      ∃ m ∈ ms, (lastScan ms (t0, u0)).2 = some m.medalUID ∧
        (lastScan ms (t0, u0)).1 = m.timestamp := by
  induction ms with
  | nil =>
      intro t0 u0
      left
      rfl
  | cons m rest ih =>
      intro t0 u0
      rw [lastScan]
      by_cases h : t0 < m.timestamp
      · simp only [h, if_pos]
        rcases ih m.timestamp (some m.medalUID) with heq | ⟨m2, hm2, h1, h2⟩
        · right
          exact ⟨m, by simp, by rw [heq], by rw [heq]⟩
        · right
          exact ⟨m2, List.mem_cons_of_mem _ hm2, h1, h2⟩
      · simp only [h, if_neg, not_false_iff]
        rcases ih t0 u0 with heq | ⟨m2, hm2, h1, h2⟩
        · left
          exact heq
        · right
          exact ⟨m2, List.mem_cons_of_mem _ hm2, h1, h2⟩

theorem lastScan_fst_le (ms : List Medal) : ∀ t0 u0, t0 ≤ (lastScan ms (t0, u0)).1 := by
  induction ms with
  | nil =>
      intro t0 u0
      exact le_refl _
  | cons m rest ih =>
      intro t0 u0
      rw [lastScan]
      by_cases h : t0 < m.timestamp
      · simp only [h, if_pos]
        exact le_trans (le_of_lt h) (ih _ _)
      · simp only [h, if_neg, not_false_iff]
        exact ih _ _

theorem lastScan_fst_ub (ms : List Medal) :
    ∀ t0 u0, ∀ x ∈ ms, x.timestamp ≤ (lastScan ms (t0, u0)).1 := by
  induction ms with
  | nil => simp
  | cons m rest ih =>
      intro t0 u0 x hx
      rw [lastScan]
      rcases List.mem_cons.mp hx with heq | hmem
      · subst heq
        by_cases h : t0 < x.timestamp
        · simp only [h, if_pos]
          exact lastScan_fst_le rest _ _
        · simp only [h, if_neg, not_false_iff]
          exact le_trans (by omega) (lastScan_fst_le rest _ _)
      · by_cases h : t0 < m.timestamp
        · simp only [h, if_pos]
          exact ih _ _ x hmem
        · simp only [h, if_neg, not_false_iff]
          exact ih _ _ x hmem

theorem medalSummary_fst (env : StackEnv) (medals : List Medal) :
    (medalSummary env medals).1 = countTiers medals ⟨0, 0, 0, 0⟩ := rfl

theorem medalSummary_snd (env : StackEnv) (medals : List Medal) :
    (medalSummary env medals).2 = (jsOrNull (lastScan medals (0, none)).2).map
      (fun uid => ⟨uid, env.isoOfEpoch ((lastScan medals (0, none)).1 * 1000)⟩) := rfl

theorem jsOrNull_eq_some (o : Option String) (v : String) :
    jsOrNull o = some v ↔ o = some v ∧ v ≠ "" := by
  cases o with
  | none => simp [jsOrNull]
  | some w =>
      rw [show jsOrNull (some w) = if w = "" then none else some w from rfl]
      by_cases hw : w = ""
      · subst hw
        simp only [if_pos rfl]
        constructor
        · intro hc
          exact absurd hc (by simp)
        · rintro ⟨hc, hv⟩
          exact absurd (show v = "" by simpa using hc.symm) hv
      · rw [if_neg hw]
        constructor
        · intro hc
          have hwv : w = v := by simpa using hc
          subst hwv
          exact ⟨rfl, hw⟩
        · rintro ⟨hc, _⟩
          simpa using hc

theorem jsOrNull_eq_none (o : Option String) :
    jsOrNull o = none ↔ o = none ∨ o = some "" := by
  cases o with
  | none => simp [jsOrNull]
  | some w => by_cases hw : w = "" <;> simp [jsOrNull, hw]

/-! ## Claim C10: medal buckets and last medal -/

/-- **C10 (counterexample).** The claim says `lastMedalClaimed` is the medal
with the maximum timestamp and is null only when there are no medals.  On a
stack holding exactly one medal whose on-chain timestamp is 0, the loop's
strict `timestamp > lastMedalTimestamp` comparison (starting from 0) never
fires, so the tool reports `totalMedals = 1` together with
`lastMedalClaimed = null`. -/
theorem c10_counterexample :
    stackEnvZeroTs.getStackMedals = .ok [⟨"0xowner", 7, "medal-1", 1, "", 0⟩] ∧
    getStackAchievements "0xabc123" stackEnvZeroTs =
      ⟨mkTextResponse (stringify (encodeStackOutput
        { userAddress := "0xabc123"
          timestamp := nowStr
          hasStack := true
          totalMedals := 1
          medalsByTier := ⟨1, 0, 0, 0⟩
          lastMedalClaimed := none })), ["addressToTokenId", "getStackMedals"]⟩ :=
  ⟨rfl, rfl⟩

/-- **C10 (amended).** On a user who holds a stack, every medal is counted in
exactly one tier bucket (tier 1 bronze, 2 silver, 3 gold, anything else
special), so `totalMedals` equals the sum of the four buckets; when
`lastMedalClaimed` is non-null it is a medal of maximal timestamp (with its
claim time derived from that timestamp); it is null exactly when no medal has
a positive timestamp — i.e. when there are no medals or every medal's
timestamp is zero — or, through JavaScript string truthiness, when the
winning medal's UID is the empty string. -/
theorem c10_amended_medal_summary :
    (∀ (env : StackEnv) (medals : List Medal),
      ((medalSummary env medals).1.bronze + (medalSummary env medals).1.silver +
          (medalSummary env medals).1.gold + (medalSummary env medals).1.special
        = medals.length) ∧
      (∀ lm, (medalSummary env medals).2 = some lm →
        ∃ m ∈ medals, lm.medalUID = m.medalUID ∧
          (∀ m2 ∈ medals, m2.timestamp ≤ m.timestamp) ∧
          lm.claimedAt = env.isoOfEpoch (m.timestamp * 1000)) ∧
      ((∀ m ∈ medals, m.timestamp = 0) → (medalSummary env medals).2 = none) ∧
      ((medalSummary env medals).2 = none →
        (∀ m ∈ medals, m.timestamp = 0) ∨
          ∃ m ∈ medals, m.medalUID = "" ∧ ∀ m2 ∈ medals, m2.timestamp ≤ m.timestamp)) ∧
    (∀ (ua : String) (env : StackEnv) (stackId : Nat) (medals : List Medal),
      env.isAddr ua = true → env.addressToTokenId = .ok stackId → stackId ≠ 0 →
      env.getStackMedals = .ok medals →
      getStackAchievements ua env =
        ⟨mkTextResponse (stringify (encodeStackOutput
          { userAddress := ua
            timestamp := env.now
            hasStack := true
            totalMedals := medals.length
            medalsByTier := (medalSummary env medals).1
            lastMedalClaimed := (medalSummary env medals).2 })),
          ["addressToTokenId", "getStackMedals"]⟩) := by
  constructor
  · intro env medals
    refine ⟨?_, ?_, ?_, ?_⟩
    · rw [medalSummary_fst, countTiers_total]
      simp
    · intro lm hlm
      rw [medalSummary_snd] at hlm
      rcases hj : jsOrNull (lastScan medals (0, none)).2 with _ | uid
      · rw [hj] at hlm
        exact absurd hlm (by simp)
      · rw [hj] at hlm
        have hlm2 : lm = ⟨uid, env.isoOfEpoch ((lastScan medals (0, none)).1 * 1000)⟩ := by
          simpa using hlm.symm
        obtain ⟨hsome, _⟩ := (jsOrNull_eq_some _ _).mp hj
        rcases lastScan_result medals 0 none with heq | ⟨m, hm, h1, h2⟩
        · rw [heq] at hsome
          exact absurd hsome (by simp)
        · refine ⟨m, hm, ?_, ?_, ?_⟩
          · rw [hlm2]
            rw [h1] at hsome
            simpa using hsome.symm
          · intro m2 hm2
            rw [← h2]
            exact lastScan_fst_ub medals 0 none m2 hm2
          · rw [hlm2, ← h2]
    · intro hall
      have hn : (lastScan medals (0, none)).2 = none := (lastScan_none_iff medals).mpr hall
      rw [medalSummary_snd, hn]
      rfl
    · intro hnone
      rw [medalSummary_snd] at hnone
      have hj : jsOrNull (lastScan medals (0, none)).2 = none := by
        rcases hc : jsOrNull (lastScan medals (0, none)).2 with _ | uid
        · rfl
        · rw [hc] at hnone
          exact absurd hnone (by simp)
      rcases (jsOrNull_eq_none _).mp hj with hcase | hcase
      · exact Or.inl ((lastScan_none_iff medals).mp hcase)
      · rcases lastScan_result medals 0 none with heq | ⟨m, hm, h1, h2⟩
        · rw [heq] at hcase
          exact absurd hcase (by simp)
        · right
          refine ⟨m, hm, ?_, ?_⟩
          · rw [hcase] at h1
            exact (show ("" : String) = m.medalUID by simpa using h1).symm
          · intro m2 hm2
            rw [← h2]
            exact lastScan_fst_ub medals 0 none m2 hm2
  · intro ua env stackId medals h1 h2 h3 h4
    simp [getStackAchievements, h1, stackAchievementsResolved, h2, h3, h4]

theorem c10_amended_witness :
    stackEnvMedals.isAddr "0xabc123" = true ∧
    stackEnvMedals.addressToTokenId = .ok 7 ∧
    stackEnvMedals.getStackMedals = .ok [⟨"0xowner", 7, "m1", 1, "", 100⟩,
      ⟨"0xowner", 7, "m2", 5, "", 250⟩, ⟨"0xowner", 7, "m3", 3, "", 200⟩] ∧
    ((medalSummary stackEnvMedals [⟨"0xowner", 7, "m1", 1, "", 100⟩,
        ⟨"0xowner", 7, "m2", 5, "", 250⟩, ⟨"0xowner", 7, "m3", 3, "", 200⟩]).1.bronze +
      (medalSummary stackEnvMedals [⟨"0xowner", 7, "m1", 1, "", 100⟩,
        ⟨"0xowner", 7, "m2", 5, "", 250⟩, ⟨"0xowner", 7, "m3", 3, "", 200⟩]).1.silver +
      (medalSummary stackEnvMedals [⟨"0xowner", 7, "m1", 1, "", 100⟩,
        ⟨"0xowner", 7, "m2", 5, "", 250⟩, ⟨"0xowner", 7, "m3", 3, "", 200⟩]).1.gold +
      (medalSummary stackEnvMedals [⟨"0xowner", 7, "m1", 1, "", 100⟩,
        ⟨"0xowner", 7, "m2", 5, "", 250⟩, ⟨"0xowner", 7, "m3", 3, "", 200⟩]).1.special = 3) ∧
    getStackAchievements "0xabc123" stackEnvMedals =
      ⟨mkTextResponse (stringify (encodeStackOutput
        { userAddress := "0xabc123"
          timestamp := stackEnvMedals.now
          hasStack := true
          totalMedals := 3
          medalsByTier := (medalSummary stackEnvMedals [⟨"0xowner", 7, "m1", 1, "", 100⟩,
            ⟨"0xowner", 7, "m2", 5, "", 250⟩, ⟨"0xowner", 7, "m3", 3, "", 200⟩]).1
          lastMedalClaimed := (medalSummary stackEnvMedals [⟨"0xowner", 7, "m1", 1, "", 100⟩,
            ⟨"0xowner", 7, "m2", 5, "", 250⟩, ⟨"0xowner", 7, "m3", 3, "", 200⟩]).2 })),
        ["addressToTokenId", "getStackMedals"]⟩ :=
  ⟨by decide, rfl, rfl,
    (c10_amended_medal_summary.1 stackEnvMedals [⟨"0xowner", 7, "m1", 1, "", 100⟩,
      ⟨"0xowner", 7, "m2", 5, "", 250⟩, ⟨"0xowner", 7, "m3", 3, "", 200⟩]).1,
    c10_amended_medal_summary.2 "0xabc123" stackEnvMedals 7 [⟨"0xowner", 7, "m1", 1, "", 100⟩,
      ⟨"0xowner", 7, "m2", 5, "", 250⟩, ⟨"0xowner", 7, "m3", 3, "", 200⟩]
      (by decide) rfl (by decide) rfl⟩

/-! ## Claim C4: independently-failable sub-requests -/

/-- **C4.** For the fan-out tools (collection analytics, chain status): when
an optional-field sub-request fails while the primary one succeeds, the
corresponding output field is null, every other field is still produced from
its own sub-request, the request is not aborted (a normal serialized response
is returned), and the failed sub-call was issued exactly once — never
retried. -/
theorem c4_failed_subcall_yields_null_field :
    (∀ (chainId : Nat) (ca : String) (cache : CacheState) (env : CollectionEnv)
      (fe : String) (n0 : NftToken) (rest : List NftToken),
      env.getFloorPrice = .error fe → env.getNftsForContract = .ok (n0 :: rest) →
      cache (collectionCacheKey chainId ca) = none →
      (buildCollectionAnalytics ca env).floorPrice = none ∧
      (buildCollectionAnalytics ca env).name = jsOrNull n0.contractName ∧
      (buildCollectionAnalytics ca env).symbol = jsOrNull n0.contractSymbol ∧
      (buildCollectionAnalytics ca env).totalSupply = n0.contractTotalSupply ∧
      (buildCollectionAnalytics ca env).contractType = jsOrNull n0.contractTokenType ∧
      (buildCollectionAnalytics ca env).sampleNfts = ((n0 :: rest).take 5).map mkSample ∧
      (buildCollectionAnalytics ca env).ownerCount =
        (match env.getOwnersForContract with
          | .ok owners => some owners.length
          | .error _ => none) ∧
      (getCollectionAnalytics chainId ca cache env).response =
        mkTextResponse (stringify (encodeCollectionAnalytics (buildCollectionAnalytics ca env))) ∧
      (getCollectionAnalytics chainId ca cache env).upstreamCalls.count "getFloorPrice" = 1) ∧
    (∀ (isMainnet : Bool) (chainId : Nat) (env : ChainStatusEnv) (ge : String) (blk : Block),
      env.getGasPrice = .error ge → env.getBlock = .ok blk →
      (getChainStatus isMainnet chainId env).gasPrice = none ∧
      (getChainStatus isMainnet chainId env).rpcHealthy = true ∧
      (getChainStatus isMainnet chainId env).avgBlockTime = avgBlockTimeOf env blk ∧
      getChainStatusResponse isMainnet chainId env =
        mkTextResponse (stringify (encodeChainStatus (getChainStatus isMainnet chainId env)))) := by
  constructor
  · intro chainId ca cache env fe n0 rest hf hn hmiss
    cases hw : env.getOwnersForContract with
    | ok owners =>
        refine ⟨?_, ?_, ?_, ?_, ?_, ?_, ?_, ?_, ?_⟩ <;>
          simp [buildCollectionAnalytics, getCollectionAnalytics, hf, hn, hw, hmiss, List.count]
    | error we =>
        refine ⟨?_, ?_, ?_, ?_, ?_, ?_, ?_, ?_, ?_⟩ <;>
          simp [buildCollectionAnalytics, getCollectionAnalytics, hf, hn, hw, hmiss, List.count]
  · intro isMainnet chainId env ge blk hg hb
    refine ⟨?_, ?_, ?_, ?_⟩ <;> simp [getChainStatus, getChainStatusResponse, hg, hb]

theorem c4_witness :
    collectionEnvWit.getFloorPrice = .error "floor price unavailable" ∧
    collectionEnvWit.getNftsForContract = .ok [nftTokenWit] ∧
    emptyCache (collectionCacheKey 360 "0xAbCd") = none ∧
    (buildCollectionAnalytics "0xAbCd" collectionEnvWit).floorPrice = none ∧
    (buildCollectionAnalytics "0xAbCd" collectionEnvWit).ownerCount = some 2 ∧
    chainEnvWit.getGasPrice = .error "gas oracle down" ∧
    (getChainStatus true 360 chainEnvWit).gasPrice = none ∧
    (getChainStatus true 360 chainEnvWit).rpcHealthy = true := by
  have h1 := c4_failed_subcall_yields_null_field.1 360 "0xAbCd" emptyCache collectionEnvWit
    "floor price unavailable" nftTokenWit [] rfl rfl rfl
  have h2 := c4_failed_subcall_yields_null_field.2 true 360 chainEnvWit
    "gas oracle down" ⟨1000, 17000000⟩ rfl rfl
  exact ⟨rfl, rfl, rfl, h1.1, by rw [h1.2.2.2.2.2.2.1]; rfl, rfl, h2.1, h2.2.1⟩

/-! ## Aggregation lemmas for the gasback analytics loop -/

theorem sumTokenStats_ok (env : CreatorAnalyticsEnv) (g b : Nat → Nat) (rc : Nat → List String)
    (hg : ∀ t, env.getTokenTotalGasback t = .ok (g t))
    (hb : ∀ t, env.getTokenGasbackBalance t = .ok (b t))
    (hrc : ∀ t, env.getTokenRegisteredContracts t = .ok (rc t)) :
    ∀ (ts : List Nat) (g0 b0 r0 : Nat),
      sumTokenStats env ts (g0, b0, r0) =
        .ok (g0 + (ts.map g).sum, b0 + (ts.map b).sum,
          r0 + (ts.map fun t => (rc t).length).sum) := by
  intro ts
  induction ts with
  | nil =>
      intro g0 b0 r0
      rfl
  | cons t ts ih =>
      intro g0 b0 r0
      have hr : readTokenStats env t = .ok (g t, b t, rc t) := by
        unfold readTokenStats
        rw [hg t, hb t, hrc t]
        rfl
      rw [sumTokenStats]
      rw [show (do
          let x ← readTokenStats env t
          sumTokenStats env ts (g0 + x.1, b0 + x.2.1, r0 + x.2.2.length) :
            Except String (Nat × Nat × Nat)) =
          sumTokenStats env ts (g0 + g t, b0 + b t, r0 + (rc t).length) from by rw [hr]; rfl]
      rw [ih]
      simp [Nat.add_assoc]

/-- The success path of `getShapeCreatorAnalytics` on a creator with tokens:
each aggregate field is the sum of the per-token reads. -/
theorem creatorAnalyticsCore_ok (ca : String) (env : CreatorAnalyticsEnv)
    (tokens : List Nat) (g b : Nat → Nat) (rc : Nat → List String)
    (hown : env.getOwnedTokens = .ok tokens)
    (hg : ∀ t, env.getTokenTotalGasback t = .ok (g t))
    (hb : ∀ t, env.getTokenGasbackBalance t = .ok (b t))
    (hrc : ∀ t, env.getTokenRegisteredContracts t = .ok (rc t))
    (hne : tokens ≠ []) :
    creatorAnalyticsCore ca env = .ok
      { creatorAddress := ca
        timestamp := env.now
        hasTokens := true
        totalTokens := tokens.length
        totalEarnedETH := weiToEth6 ((tokens.map g).sum)
        currentBalanceETH := weiToEth6 ((tokens.map b).sum)
        totalWithdrawnETH := weiToEth6 (((tokens.map g).sum : ℤ) - ((tokens.map b).sum : ℤ))
        registeredContracts := (tokens.map fun t => (rc t).length).sum } := by
  have hne2 : tokens.isEmpty = false := by
    cases tokens with
    | nil => exact absurd rfl hne
    | cons x xs => rfl
  unfold creatorAnalyticsCore
  rw [hown]
  simp only [Bind.bind, Except.bind, hne2, Bool.not_false, if_neg Bool.false_ne_true]
  rw [sumTokenStats_ok env g b rc hg hb hrc tokens 0 0 0]
  simp [Nat.zero_add]
  rfl

/-! ## Non-negativity of the fixed-decimal conversion -/

theorem fixedUnits_nonneg (d : Nat) (q : ℚ) (h : 0 ≤ q) : 0 ≤ fixedUnits d q := by
  unfold fixedUnits
  rw [if_neg (not_lt.mpr h)]
  apply Int.floor_nonneg.mpr
  positivity

theorem toFixedQ_nonneg (d : Nat) (q : ℚ) (h : 0 ≤ q) : 0 ≤ toFixedQ d q := by
  unfold toFixedQ
  apply div_nonneg _ (by positivity)
  exact_mod_cast fixedUnits_nonneg d q h

theorem weiToEth6_nonneg (w : ℤ) (h : 0 ≤ w) : 0 ≤ weiToEth6 w := by
  apply toFixedQ_nonneg
  apply div_nonneg _ (by positivity)
  exact_mod_cast h

/-! ## Claim C7: non-negative amounts -/

/-- **C7 (counterexample).** The claim says the withdrawn amount (total
earned minus current balance) is never negative for all possible values
returned by the contract reads.  When the reads report a balance of 5 ETH
against 0 total earned, the handler outputs `totalWithdrawnETH = -5`. -/
theorem c7_counterexample :
    (creatorAnalyticsCore "0xcafe" creatorEnvNeg).map ShapeCreatorAnalyticsOutput.totalWithdrawnETH
      = .ok (-5) ∧ ((-5 : ℚ) < 0) := by
  constructor
  · have h1 := creatorAnalyticsCore_ok "0xcafe" creatorEnvNeg [1] (fun _ => 0)
      (fun _ => 5 * 10 ^ 18) (fun _ => []) rfl (fun t => rfl) (fun t => rfl) (fun t => rfl)
      (by simp)
    rw [h1]
    simp only [Except.map]
    norm_num [weiToEth6, toFixedQ, fixedUnits]
  · norm_num

/-- **C7 (amended).** The ETH-denominated amounts of the gasback
creator-analytics output are non-negative provided each token's current
balance does not exceed its total earned (the gasback contract's invariant);
for arbitrary read values, `totalWithdrawnETH` can be negative. -/
theorem c7_amended_amounts_nonneg (ca : String) (env : CreatorAnalyticsEnv)
    (tokens : List Nat) (g b : Nat → Nat) (rc : Nat → List String)
    (hown : env.getOwnedTokens = .ok tokens)
    (hg : ∀ t, env.getTokenTotalGasback t = .ok (g t))
    (hb : ∀ t, env.getTokenGasbackBalance t = .ok (b t))
    (hrc : ∀ t, env.getTokenRegisteredContracts t = .ok (rc t))
    (hle : ∀ t ∈ tokens, b t ≤ g t) :
    ∀ a, creatorAnalyticsCore ca env = .ok a →
      0 ≤ a.totalEarnedETH ∧ 0 ≤ a.currentBalanceETH ∧ 0 ≤ a.totalWithdrawnETH := by
  intro a ha
  by_cases hne : tokens = []
  · subst hne
    have hbase : creatorAnalyticsCore ca env = .ok
        { creatorAddress := ca
          timestamp := env.now
          hasTokens := false
          totalTokens := 0
          totalEarnedETH := 0
          currentBalanceETH := 0
          totalWithdrawnETH := 0
          registeredContracts := 0 } := by
      unfold creatorAnalyticsCore
      rw [hown]
      rfl
    rw [hbase] at ha
    injection ha with ha
    rw [← ha]
    norm_num
  · rw [creatorAnalyticsCore_ok ca env tokens g b rc hown hg hb hrc hne] at ha
    injection ha with ha
    rw [← ha]
    refine ⟨weiToEth6_nonneg _ (by positivity), weiToEth6_nonneg _ (by positivity), ?_⟩
    apply weiToEth6_nonneg
    have hsum : ((tokens.map b).sum) ≤ ((tokens.map g).sum) := List.sum_le_sum hle
    exact sub_nonneg.mpr (by exact_mod_cast hsum)

theorem c7_witness :
    creatorEnvOk.getOwnedTokens = .ok [1, 2] ∧ (∀ t ∈ [1, 2], bWit t ≤ gWit t) ∧
    creatorAnalyticsCore "0xcafe" creatorEnvOk = .ok creatorOutWit ∧
    0 ≤ creatorOutWit.totalEarnedETH ∧ 0 ≤ creatorOutWit.currentBalanceETH ∧
    0 ≤ creatorOutWit.totalWithdrawnETH := by
  have hok : creatorAnalyticsCore "0xcafe" creatorEnvOk = .ok creatorOutWit := by
    have h1 := creatorAnalyticsCore_ok "0xcafe" creatorEnvOk [1, 2] gWit bWit rcWit rfl
      (fun t => rfl) (fun t => rfl) (fun t => rfl) (by simp)
    rw [h1]
    simp only [creatorOutWit, gWit, bWit, rcWit]
    norm_num
    refine ⟨rfl, ?_, ?_, ?_⟩ <;> congr 1
  have h := c7_amended_amounts_nonneg "0xcafe" creatorEnvOk [1, 2] gWit bWit rcWit rfl
    (fun t => rfl) (fun t => rfl) (fun t => rfl) (by decide) creatorOutWit hok
  exact ⟨rfl, by decide, hok, h.1, h.2.1, h.2.2⟩

/-! ## Sorting lemmas for the topCreators lists -/

theorem entryLe_trans (a b c : TopCreatorEntry) (hab : entryLe a b = true)
    (hbc : entryLe b c = true) : entryLe a c = true := by
  simp only [entryLe, decide_eq_true_eq] at *
  exact le_trans hbc hab

theorem entryLe_total (a b : TopCreatorEntry) : (entryLe a b || entryLe b a) = true := by
  simp only [entryLe, Bool.or_eq_true, decide_eq_true_eq]
  exact le_total _ _

/-- A truncated merge-sorted list of entries is pairwise non-increasing in
total earnings. -/
theorem pairwise_desc_mergeSort_take (l : List TopCreatorEntry) (k : Nat) :
    List.Pairwise (fun a b => b.totalEarnedETH ≤ a.totalEarnedETH)
      ((l.mergeSort entryLe).take k) := by
  have hs := List.sorted_mergeSort entryLe_trans entryLe_total l
  have ht := List.Pairwise.sublist (List.take_sublist k (l.mergeSort entryLe)) hs
  exact ht.imp fun h => by simpa [entryLe, decide_eq_true_eq] using h

/-! ## Claim C9: sorted, bounded output -/

/-- **C9.** The `topCreators` list returned by `getTopShapeCreators` is
sorted in non-increasing order of total earnings, and its length is at most
`min(max(1, limit), 100)` in the limit-parameterized variant and at most 25
in the multicall variant, regardless of how many creators were aggregated. -/
theorem c9_top_creators_sorted_and_bounded :
    (∀ (limit : ℤ) (env : TopCreatorsEnv) (o : TopShapeCreatorsOutput),
      topShapeCreatorsCore limit env = .ok o →
      List.Pairwise (fun a b => b.totalEarnedETH ≤ a.totalEarnedETH) o.topCreators ∧
      (o.topCreators.length : ℤ) ≤ min (max 1 limit) 100) ∧
    (∀ (env : MulticallEnv) (o : TopShapeCreatorsOutput),
      topShapeCreatorsMulticallCore env = .ok o →
      List.Pairwise (fun a b => b.totalEarnedETH ≤ a.totalEarnedETH) o.topCreators ∧
      o.topCreators.length ≤ 25) := by
  constructor
  · intro limit env o hok
    unfold topShapeCreatorsCore at hok
    cases hs : env.totalSupply with
    | error e =>
        rw [hs] at hok
        exact absurd hok (by simp [Bind.bind, Except.bind])
    | ok n =>
        rw [hs] at hok
        simp only [Bind.bind, Except.bind] at hok
        by_cases hn : n = 0
        · rw [if_pos hn] at hok
          have ho : o = ⟨env.now, 0, []⟩ := by
            injection hok with h
            exact h.symm
          subst ho
          refine ⟨List.Pairwise.nil, ?_⟩
          simp only [List.length_nil, Int.natCast_zero]
          omega
        · rw [if_neg hn] at hok
          have ho : o = ⟨env.now,
              (processTokens env (List.range' 1 n) []).length,
              (((processTokens env (List.range' 1 n) []).map
                  (fun p => toEntry p.2)).mergeSort entryLe).take (min (max 1 limit) 100).toNat⟩ := by
            injection hok with h
            exact h.symm
          subst ho
          refine ⟨pairwise_desc_mergeSort_take _ _, ?_⟩
          generalize (((processTokens env (List.range' 1 n) []).map
            (fun p => toEntry p.2)).mergeSort entryLe) = l
          have h1 : (l.take (min (max 1 limit) 100).toNat).length
              ≤ (min (max 1 limit) 100).toNat := by
            rw [List.length_take]
            omega
          have h2 : (((min (max 1 limit) 100).toNat : ℤ)) = min (max 1 limit) 100 :=
            Int.toNat_of_nonneg (by omega)
          rw [← h2]
          exact_mod_cast h1
  · intro env o hok
    unfold topShapeCreatorsMulticallCore at hok
    cases hs : env.totalSupply with
    | error e =>
        rw [hs] at hok
        exact absurd hok (by simp [Bind.bind, Except.bind])
    | ok n =>
        rw [hs] at hok
        simp only [Bind.bind, Except.bind] at hok
        by_cases hn : n = 0
        · rw [if_pos hn] at hok
          have ho : o = ⟨env.now, 0, []⟩ := by
            injection hok with h
            exact h.symm
          subst ho
          exact ⟨List.Pairwise.nil, by simp⟩
        · rw [if_neg hn] at hok
          by_cases he : (tokenOwners env n).isEmpty
          · rw [if_pos he] at hok
            have ho : o = ⟨env.now, 0, []⟩ := by
              injection hok with h
              exact h.symm
            subst ho
            exact ⟨List.Pairwise.nil, by simp⟩
          · rw [if_neg he] at hok
            have ho : o = ⟨env.now,
                (processMulticall env (tokenOwners env n) []).length,
                (((processMulticall env (tokenOwners env n) []).map
                    (fun p => toEntry p.2)).mergeSort entryLe).take 25⟩ := by
              injection hok with h
              exact h.symm
            subst ho
            refine ⟨pairwise_desc_mergeSort_take _ _, ?_⟩
            simp only [List.length_take]
            omega

theorem c9_witness :
    (topShapeCreatorsCore 50 topEnvErr = .error "rpc down") ∧
    topShapeCreatorsCore 50 topEnvWit =
      .ok ⟨nowStr, (processTokens topEnvWit (List.range' 1 2) []).length,
        (((processTokens topEnvWit (List.range' 1 2) []).map
            (fun p => toEntry p.2)).mergeSort entryLe).take 50⟩ ∧
    (List.Pairwise (fun a b => b.totalEarnedETH ≤ a.totalEarnedETH)
      ((((processTokens topEnvWit (List.range' 1 2) []).map
          (fun p => toEntry p.2)).mergeSort entryLe).take 50) ∧
      (((((processTokens topEnvWit (List.range' 1 2) []).map
          (fun p => toEntry p.2)).mergeSort entryLe).take 50).length : ℤ) ≤ min (max 1 50) 100) := by
  refine ⟨rfl, ?_, ?_⟩
  · unfold topShapeCreatorsCore
    rfl
  · exact c9_top_creators_sorted_and_bounded.1 50 topEnvWit _ (by unfold topShapeCreatorsCore; rfl)

/-! ## Decimal-string lemmas for the cache key -/

theorem natChars_mem_digit (n : Nat) : ∀ c ∈ natChars n, ∃ k ≤ 9, c = digitChar k := by
  induction n using Nat.strong_induction_on with
  | _ n ih =>
    rw [natChars]
    split
    · intro c hc
      simp at hc
      exact ⟨n, by omega, hc⟩
    · intro c hc
      rcases List.mem_append.mp hc with h1 | h2
      · exact ih (n / 10) (Nat.div_lt_self (by omega) (by omega)) c h1
      · simp at h2
        exact ⟨n % 10, by omega, h2⟩

theorem natChars_no_colon (n : Nat) : ∀ c ∈ natChars n, c ≠ ':' := by
  intro c hc
  rcases natChars_mem_digit n c hc with ⟨k, hk, rfl⟩
  intro h
  have h2 := congrArg Char.toNat h
  rw [digitChar_toNat k hk] at h2
  rw [show (':' : Char).toNat = 58 from rfl] at h2
  omega

theorem valOfChars_natChars (n : Nat) : valOfChars (natChars n) = n := by
  induction n using Nat.strong_induction_on with
  | _ n ih =>
    rw [natChars]
    split
    · rename_i h
      simp [valOfChars, digitChar_toNat n (by omega)]
    · rename_i h
      rw [valOfChars, List.foldl_append]
      have h1 := ih (n / 10) (Nat.div_lt_self (by omega) (by omega))
      rw [valOfChars] at h1
      rw [h1]
      simp [digitChar_toNat (n % 10) (by omega)]
      omega

theorem natChars_injective {m n : Nat} (h : natChars m = natChars n) : m = n := by
  have h2 := congrArg valOfChars h
  rwa [valOfChars_natChars, valOfChars_natChars] at h2

/-- Splitting at the first colon: two decompositions of the same character
list around a colon, with colon-free prefixes, coincide. -/
theorem colonFree_split (xs : List Char) (ys : List Char) :
    ∀ (xs2 ys2 : List Char), (∀ c ∈ xs, c ≠ ':') → (∀ c ∈ xs2, c ≠ ':') →
    xs ++ ':' :: ys = xs2 ++ ':' :: ys2 → xs = xs2 ∧ ys = ys2 := by
  induction xs with
  | nil =>
      intro xs2 ys2 h1 h2 h
      cases xs2 with
      | nil => simpa using h
      | cons d ds =>
          exfalso
          simp at h
          exact h2 d (by simp) h.1.symm
  | cons a as ih =>
      intro xs2 ys2 h1 h2 h
      cases xs2 with
      | nil =>
          exfalso
          simp at h
          exact h1 a (by simp) h.1
      | cons d ds =>
          simp at h
          obtain ⟨had, hrest⟩ := h
          subst had
          obtain ⟨hx, hy⟩ := ih ds ys2 (fun c hc => h1 c (List.mem_cons_of_mem _ hc))
            (fun c hc => h2 c (List.mem_cons_of_mem _ hc)) hrest
          exact ⟨by rw [hx], hy⟩

theorem collectionCacheKey_data (k : Nat) (s : String) :
    (collectionCacheKey k s).data
      = "mcp:collectionAnalytics:".data ++ (natChars k ++ (':' :: s.toLower.data)) := by
  show (("mcp:collectionAnalytics:".data ++ natChars k) ++ [':']) ++ s.toLower.data = _
  simp [List.append_assoc]

/-! ## Claim C6: the collection-analytics cache -/

/-- **C6.** The cache key of the collection-analytics tool is a function of
exactly the chain id and the lowercased contract address (it is invariant
under case changes of the address, and two keys agree only when chain id and
lowercased address agree); on a hit the stored response is returned with no
upstream call and no write; on a miss the freshly built response is stored
under that key with the fixed 15-minute (900 second) expiry. -/
theorem c6_collection_cache_key_hit_miss :
    (∀ (c : Nat) (a b : String), a.toLower = b.toLower →
      collectionCacheKey c a = collectionCacheKey c b) ∧
    (∀ (c d : Nat) (a b : String), collectionCacheKey c a = collectionCacheKey d b →
      c = d ∧ a.toLower = b.toLower) ∧
    (∀ (chainId : Nat) (ca : String) (cache : CacheState) (env : CollectionEnv)
      (r : ToolResponse), cache (collectionCacheKey chainId ca) = some r →
      getCollectionAnalytics chainId ca cache env = ⟨r, [], []⟩) ∧
    (∀ (chainId : Nat) (ca : String) (cache : CacheState) (env : CollectionEnv),
      cache (collectionCacheKey chainId ca) = none →
      (getCollectionAnalytics chainId ca cache env).cacheWrites =
        [⟨collectionCacheKey chainId ca,
          (getCollectionAnalytics chainId ca cache env).response, collectionCacheTTL⟩]) ∧
    collectionCacheTTL = 60 * 15 := by
  refine ⟨?_, ?_, ?_, ?_, rfl⟩
  · intro c a b h
    unfold collectionCacheKey
    rw [h]
  · intro c d a b h
    have hd := congrArg String.data h
    rw [collectionCacheKey_data, collectionCacheKey_data] at hd
    have hd2 := List.append_cancel_left hd
    obtain ⟨h1, h2⟩ := colonFree_split (natChars c) a.toLower.data (natChars d) b.toLower.data
      (natChars_no_colon c) (natChars_no_colon d) hd2
    refine ⟨natChars_injective h1, ?_⟩
    calc a.toLower = ⟨a.toLower.data⟩ := rfl
      _ = ⟨b.toLower.data⟩ := by rw [h2]
      _ = b.toLower := rfl
  · intro chainId ca cache env r hhit
    simp only [getCollectionAnalytics]
    rw [hhit]
  · intro chainId ca cache env hmiss
    simp only [getCollectionAnalytics]
    rw [hmiss]

theorem c6_witness :
    hitCache (collectionCacheKey 360 "0xAbCd") = some cachedResponseWit ∧
    getCollectionAnalytics 360 "0xAbCd" hitCache collectionEnvWit =
      ⟨cachedResponseWit, [], []⟩ ∧
    emptyCache (collectionCacheKey 360 "0xAbCd") = none ∧
    (getCollectionAnalytics 360 "0xAbCd" emptyCache collectionEnvWit).cacheWrites =
      [⟨collectionCacheKey 360 "0xAbCd",
        (getCollectionAnalytics 360 "0xAbCd" emptyCache collectionEnvWit).response,
        collectionCacheTTL⟩] ∧
    (360 = 360 ∧ "0xAbCd".toLower = "0xAbCd".toLower) := by
  have hhit : hitCache (collectionCacheKey 360 "0xAbCd") = some cachedResponseWit := by
    unfold hitCache
    rw [if_pos rfl]
  refine ⟨hhit, ?_, rfl, ?_, ?_⟩
  · exact c6_collection_cache_key_hit_miss.2.2.1 360 "0xAbCd" hitCache collectionEnvWit
      cachedResponseWit hhit
  · exact c6_collection_cache_key_hit_miss.2.2.2.1 360 "0xAbCd" emptyCache collectionEnvWit rfl
  · exact c6_collection_cache_key_hit_miss.2.1 360 360 "0xAbCd" "0xAbCd"
      (c6_collection_cache_key_hit_miss.1 360 "0xAbCd" "0xAbCd" rfl)

/-! ## Fold lemmas for the creatorStats map -/

theorem lookupStats_insertToken (m : List (String × CreatorStats)) (o : String)
    (g b rc : Nat) (k : String) :
    lookupStats (insertToken m o g b rc) k =
      if k = o then some (bumpStats ((lookupStats m o).getD (initStats o)) g b rc)
      else lookupStats m k := by
  induction m with
  | nil =>
      by_cases h : k = o
      · subst h
        simp [insertToken, lookupStats]
      · simp only [insertToken, lookupStats]
        rw [if_neg (fun hc => h hc.symm), if_neg h]
  | cons hd rest ih =>
      obtain ⟨k0, s0⟩ := hd
      simp only [insertToken]
      by_cases h1 : k0 = o
      · subst h1
        rw [if_pos rfl]
        by_cases h2 : k0 = k
        · subst h2
          simp [lookupStats]
        · simp only [lookupStats]
          rw [if_neg h2, if_neg (fun hc => h2 hc.symm), if_neg h2]
      · rw [if_neg h1]
        by_cases h2 : k0 = k
        · subst h2
          simp only [lookupStats]
          simp [h1]
        · simp only [lookupStats]
          rw [if_neg h2, ih, if_neg h2]
          by_cases h3 : k = o
          · rw [if_pos h3, if_pos h3]
            simp [h1]
          · rw [if_neg h3, if_neg h3]

theorem tokensOf_cons_hit (own : Nat → String) (k : String) (t : Nat) (ts : List Nat)
    (h : own t = k) : tokensOf own k (t :: ts) = t :: tokensOf own k ts := by
  simp [tokensOf, List.filter_cons, h]

theorem tokensOf_cons_miss (own : Nat → String) (k : String) (t : Nat) (ts : List Nat)
    (h : own t ≠ k) : tokensOf own k (t :: ts) = tokensOf own k ts := by
  simp [tokensOf, List.filter_cons, h]

theorem addTo_nil (own : Nat → String) (g b rcl : Nat → Nat) (s0 : CreatorStats) (k : String) :
    addTo own g b rcl s0 k [] = s0 := by
  simp [addTo, tokensOf]

theorem addTo_cons_hit (own : Nat → String) (g b rcl : Nat → Nat) (s0 : CreatorStats)
    (k : String) (t : Nat) (ts : List Nat) (h : own t = k) :
    addTo own g b rcl (bumpStats s0 (g t) (b t) (rcl t)) k ts
      = addTo own g b rcl s0 k (t :: ts) := by
  obtain ⟨ad, tt, te, cb, rc2⟩ := s0
  simp only [addTo, bumpStats, tokensOf_cons_hit own k t ts h, List.length_cons,
    List.map_cons, List.sum_cons, CreatorStats.mk.injEq]
  refine ⟨trivial, ?_, ?_, ?_, ?_⟩ <;> omega

theorem addTo_cons_miss (own : Nat → String) (g b rcl : Nat → Nat) (s0 : CreatorStats)
    (k : String) (t : Nat) (ts : List Nat) (h : own t ≠ k) :
    addTo own g b rcl s0 k (t :: ts) = addTo own g b rcl s0 k ts := by
  simp only [addTo, tokensOf_cons_miss own k t ts h]

/-- The central invariant of the token loop: after folding a token list into
the creator map, the entry of key `k` holds exactly the initial entry plus
the sums of the per-token reads over the tokens owned by `k`. -/
theorem processTokens_lookupStats (env : TopCreatorsEnv) (own : Nat → String)
    (g b rcl : Nat → Nat)
    (hread : ∀ t, readTopToken env t = some (own t, g t, b t, rcl t)) :
    ∀ (ts : List Nat) (m : List (String × CreatorStats)) (k : String),
      lookupStats (processTokens env ts m) k =
        match lookupStats m k with
        | some s0 => some (addTo own g b rcl s0 k ts)
        | none =>
            if (tokensOf own k ts).isEmpty then none
            else some (addTo own g b rcl (initStats k) k ts) := by
  intro ts
  induction ts with
  | nil =>
      intro m k
      cases hm : lookupStats m k with
      | some s0 => simp [processTokens, hm, addTo_nil]
      | none => simp [processTokens, hm, tokensOf]
  | cons t ts ih =>
      intro m k
      simp only [processTokens, hread t]
      rw [ih]
      rw [lookupStats_insertToken]
      by_cases hk : k = own t
      · rw [if_pos hk]
        have hk2 : own t = k := hk.symm
        rw [show lookupStats m (own t) = lookupStats m k from by rw [hk]]
        cases hm : lookupStats m k with
        | some s0 =>
            simp only [Option.getD_some]
            rw [addTo_cons_hit own g b rcl s0 k t ts hk2]
        | none =>
            simp only [Option.getD_none]
            rw [show initStats (own t) = initStats k from by rw [hk2]]
            rw [addTo_cons_hit own g b rcl (initStats k) k t ts hk2]
            rw [tokensOf_cons_hit own k t ts hk2]
            simp
      · rw [if_neg hk]
        have hk2 : own t ≠ k := fun hc => hk hc.symm
        cases hm : lookupStats m k with
        | some s0 =>
            simp only []
            rw [addTo_cons_miss own g b rcl s0 k t ts hk2]
        | none =>
            simp only []
            rw [tokensOf_cons_miss own k t ts hk2]
            rw [addTo_cons_miss own g b rcl (initStats k) k t ts hk2]

theorem lookupStats_eq_none (m : List (String × CreatorStats)) (k : String) :
    lookupStats m k = none ↔ k ∉ m.map Prod.fst := by
  induction m with
  | nil => simp [lookupStats]
  | cons hd rest ih =>
      obtain ⟨k0, s0⟩ := hd
      simp only [lookupStats, List.map_cons, List.mem_cons]
      by_cases h : k0 = k
      · subst h
        simp
      · rw [if_neg h, ih]
        constructor
        · intro hn hc
          rcases hc with hc | hc
          · exact h hc.symm
          · exact hn hc
        · intro hn hc
          exact hn (Or.inr hc)

theorem insertToken_keys (m : List (String × CreatorStats)) (o : String) (g b rc : Nat) :
    (insertToken m o g b rc).map Prod.fst =
      if o ∈ m.map Prod.fst then m.map Prod.fst else m.map Prod.fst ++ [o] := by
  induction m with
  | nil => simp [insertToken]
  | cons hd rest ih =>
      obtain ⟨k0, s0⟩ := hd
      simp only [insertToken, List.map_cons, List.mem_cons]
      by_cases h : k0 = o
      · subst h
        rw [if_pos rfl]
        simp
      · rw [if_neg h]
        simp only [List.map_cons]
        rw [ih]
        by_cases h2 : o ∈ rest.map Prod.fst
        · rw [if_pos h2, if_pos (Or.inr h2)]
        · rw [if_neg h2, if_neg ?hne]
          case hne =>
            rintro (hc | hc)
            · exact h hc.symm
            · exact h2 hc
          rfl

theorem processTokens_keys_nodup (env : TopCreatorsEnv) :
    ∀ (ts : List Nat) (m : List (String × CreatorStats)), (m.map Prod.fst).Nodup →
      ((processTokens env ts m).map Prod.fst).Nodup := by
  intro ts
  induction ts with
  | nil =>
      intro m h
      simpa [processTokens] using h
  | cons t ts ih =>
      intro m h
      rw [processTokens]
      cases hr : readTopToken env t with
      | none => exact ih m h
      | some v =>
          obtain ⟨o, gg, bb, rr⟩ := v
          apply ih
          rw [insertToken_keys]
          by_cases h2 : o ∈ m.map Prod.fst
          · rw [if_pos h2]
            exact h
          · rw [if_neg h2]
            simp [List.nodup_append, h, h2]

theorem lookupStats_of_mem (m : List (String × CreatorStats)) (k : String) (s : CreatorStats)
    (hnd : (m.map Prod.fst).Nodup) (hm : (k, s) ∈ m) : lookupStats m k = some s := by
  induction m with
  | nil => simp at hm
  | cons hd rest ih =>
      obtain ⟨k0, s0⟩ := hd
      simp only [List.map_cons, List.nodup_cons] at hnd
      rcases List.mem_cons.mp hm with heq | hmem
      · cases heq
        simp [lookupStats]
      · have hk0 : k0 ≠ k := by
          intro hc
          subst hc
          exact hnd.1 (List.mem_map.mpr ⟨(k0, s), hmem, rfl⟩)
        simp only [lookupStats]
        rw [if_neg hk0]
        exact ih hnd.2 hmem

/-! ## Claim C3: aggregates are sums of per-token values -/

/-- **C3.** For a creator with a non-empty set of owned tokens, the
aggregated fields of `getShapeCreatorAnalytics` equal the sum over the owned
token ids of the per-token contract reads (converted from wei to ETH); and
every per-owner entry of `getTopShapeCreators` equals the sum of the
per-token values of the tokens that owner holds among ids `1..totalSupply`. -/
theorem c3_aggregates_are_sums :
    (∀ (ca : String) (env : CreatorAnalyticsEnv) (tokens : List Nat)
      (g b : Nat → Nat) (rc : Nat → List String),
      env.getOwnedTokens = .ok tokens →
      (∀ t, env.getTokenTotalGasback t = .ok (g t)) →
      (∀ t, env.getTokenGasbackBalance t = .ok (b t)) →
      (∀ t, env.getTokenRegisteredContracts t = .ok (rc t)) →
      tokens ≠ [] →
      ∀ a, creatorAnalyticsCore ca env = .ok a →
        a.totalTokens = tokens.length ∧
        a.totalEarnedETH = weiToEth6 ((tokens.map g).sum) ∧
        a.currentBalanceETH = weiToEth6 ((tokens.map b).sum) ∧
        a.registeredContracts = (tokens.map fun t => (rc t).length).sum) ∧
    (∀ (limit : ℤ) (env : TopCreatorsEnv) (n : Nat) (own : Nat → String)
      (g b rcl : Nat → Nat),
      env.totalSupply = .ok n →
      (∀ t, readTopToken env t = some (own t, g t, b t, rcl t)) →
      ∀ o, topShapeCreatorsCore limit env = .ok o →
        ∀ e ∈ o.topCreators,
          e.totalTokens = (tokensOf own e.address (List.range' 1 n)).length ∧
          e.totalEarnedETH = weiToEth6 (((tokensOf own e.address (List.range' 1 n)).map g).sum) ∧
          e.currentBalanceETH =
            weiToEth6 (((tokensOf own e.address (List.range' 1 n)).map b).sum) ∧
          e.registeredContracts = ((tokensOf own e.address (List.range' 1 n)).map rcl).sum) := by
  constructor
  · intro ca env tokens g b rc hown hg hb hrc hne a ha
    rw [creatorAnalyticsCore_ok ca env tokens g b rc hown hg hb hrc hne] at ha
    injection ha with ha
    rw [← ha]
    exact ⟨rfl, rfl, rfl, rfl⟩
  · intro limit env n own g b rcl hsupply hread o hok e he
    unfold topShapeCreatorsCore at hok
    rw [hsupply] at hok
    simp only [Bind.bind, Except.bind] at hok
    by_cases hn : n = 0
    · rw [if_pos hn] at hok
      have ho : o = ⟨env.now, 0, []⟩ := by
        injection hok with h
        exact h.symm
      subst ho
      simp at he
    · rw [if_neg hn] at hok
      have ho : o = ⟨env.now,
          (processTokens env (List.range' 1 n) []).length,
          (((processTokens env (List.range' 1 n) []).map
              (fun p => toEntry p.2)).mergeSort entryLe).take (min (max 1 limit) 100).toNat⟩ := by
        injection hok with h
        exact h.symm
      subst ho
      simp only at he
      have he1 : e ∈ ((processTokens env (List.range' 1 n) []).map
          (fun p => toEntry p.2)).mergeSort entryLe :=
        (List.take_sublist _ _).subset he
      have he2 : e ∈ (processTokens env (List.range' 1 n) []).map (fun p => toEntry p.2) :=
        List.mem_mergeSort.mp he1
      obtain ⟨p, hp, hpe⟩ := List.mem_map.mp he2
      obtain ⟨pk, ps⟩ := p
      have hnd : ((processTokens env (List.range' 1 n) []).map Prod.fst).Nodup :=
        processTokens_keys_nodup env (List.range' 1 n) [] (by simp)
      have hlk : lookupStats (processTokens env (List.range' 1 n) []) pk = some ps :=
        lookupStats_of_mem _ pk ps hnd hp
      rw [processTokens_lookupStats env own g b rcl hread (List.range' 1 n) [] pk] at hlk
      simp only [lookupStats] at hlk
      by_cases hemp : (tokensOf own pk (List.range' 1 n)).isEmpty
      · rw [if_pos hemp] at hlk
        exact absurd hlk (by simp)
      · rw [if_neg hemp] at hlk
        have hps : ps = addTo own g b rcl (initStats pk) pk (List.range' 1 n) := by
          have := hlk
          injection this with h2
          exact h2.symm
        have headdr : e.address = pk := by
          rw [← hpe, hps]
          rfl
        rw [headdr, ← hpe, hps]
        refine ⟨?_, ?_, ?_, ?_⟩ <;> simp [toEntry, addTo, initStats]

theorem c3_witness :
    creatorEnvOk.getOwnedTokens = .ok [1, 2] ∧
    creatorOutWit.totalTokens = 2 ∧
    creatorOutWit.totalEarnedETH = weiToEth6 ((([1, 2] : List Nat).map gWit).sum) ∧
    creatorOutWit.registeredContracts =
      ((([1, 2] : List Nat).map fun t => (rcWit t).length).sum) ∧
    (∀ e ∈ (((processTokens topEnvWit (List.range' 1 2) []).map
        (fun p => toEntry p.2)).mergeSort entryLe).take 50,
      e.totalTokens = (tokensOf (fun _ => "0xowner") e.address (List.range' 1 2)).length ∧
      e.totalEarnedETH =
        weiToEth6 (((tokensOf (fun _ => "0xowner") e.address (List.range' 1 2)).map gWit).sum) ∧
      e.currentBalanceETH =
        weiToEth6 (((tokensOf (fun _ => "0xowner") e.address (List.range' 1 2)).map bWit).sum) ∧
      e.registeredContracts =
        ((tokensOf (fun _ => "0xowner") e.address
          (List.range' 1 2)).map fun t => (rcWit t).length).sum) := by
  have hok : creatorAnalyticsCore "0xcafe" creatorEnvOk = .ok creatorOutWit := by
    have h1 := creatorAnalyticsCore_ok "0xcafe" creatorEnvOk [1, 2] gWit bWit rcWit rfl
      (fun t => rfl) (fun t => rfl) (fun t => rfl) (by simp)
    rw [h1]
    simp only [creatorOutWit, gWit, bWit, rcWit]
    norm_num
    refine ⟨rfl, ?_, ?_, ?_⟩ <;> congr 1
  have ha := c3_aggregates_are_sums.1 "0xcafe" creatorEnvOk [1, 2] gWit bWit rcWit rfl
    (fun t => rfl) (fun t => rfl) (fun t => rfl) (by simp) creatorOutWit hok
  have hcore : topShapeCreatorsCore 50 topEnvWit =
      .ok ⟨nowStr, (processTokens topEnvWit (List.range' 1 2) []).length,
        (((processTokens topEnvWit (List.range' 1 2) []).map
            (fun p => toEntry p.2)).mergeSort entryLe).take 50⟩ := by
    unfold topShapeCreatorsCore
    rfl
  have hb := c3_aggregates_are_sums.2 50 topEnvWit 2 (fun _ => "0xowner") gWit bWit
    (fun t => (rcWit t).length) rfl (fun t => rfl) _ hcore
  exact ⟨rfl, ha.1, ha.2.1, ha.2.2.2, hb⟩

end Mcp
